import Mathlib

/-!
Verification of the issue-positioning engine of the taskcore repository.

The embedding models the `issues` table as a list of rows, the `statuses`
table as a list of `(id, project_id)` rows and `project_issue_counters` as an
association list.  Every SQL UPDATE statement of `internal/issues/store.go`
becomes a `List.map` over the rows guarded by the statement's WHERE clause;
the partial unique index `uq_issues_active_status_position` (migration
`0001_init.up.sql`) is checked after each mutating statement, and the
`trg_set_updated_at_issues` trigger is modelled by setting `updatedAt` to the
transaction's `now` on every updated row.  Within-statement scan-order
effects of the index and the `status_position >= 0` CHECK are not modelled;
the integrity trigger on issue types / parents is out of scope here.
-/

set_option maxHeartbeats 1000000

/-- `reorderOffset` in store.go: the two-phase shift constant K. -/
def reorderOffset : Int := 1000000

/-- A row of the `issues` table (columns of `issueCols` in store.go). -/
structure IssueRow where
  id : String
  projectId : String
  number : Int
  issueTypeId : String
  statusId : String
  parentIssueId : Option String
  title : String
  description : String
  priority : String
  assigneeId : Option String
  reporterId : String
  dueDate : Option Int
  statusPosition : Int
  createdAt : Int
  updatedAt : Int
  archivedAt : Option Int
deriving Repr, DecidableEq

/-- A row of the `statuses` table (only the columns the engine reads). -/
structure StatusRow where
  id : String
  projectId : String
deriving Repr, DecidableEq

/-- The persistent store: issues, statuses and per-project issue counters. -/
structure Store where
  issues : List IssueRow
  statuses : List StatusRow
  counters : List (String × Int)
deriving Repr, DecidableEq

/-- The WHERE clause shared by all positional queries:
`project_id = p AND status_id = s AND archived_at IS NULL`. -/
def isActiveInStatus (p s : String) (r : IssueRow) : Bool :=
  decide (r.projectId = p ∧ r.statusId = s ∧ r.archivedAt = none)

/-- Active issues of one `(project, status)` cell. -/
def activeInStatus (st : List IssueRow) (p s : String) : List IssueRow :=
  st.filter (isActiveInStatus p s)

/-- `status_position` values of the active issues of one cell. -/
def activePositions (st : List IssueRow) (p s : String) : List Int :=
  (activeInStatus st p s).map (fun r => r.statusPosition)

/-- `COALESCE(MAX(status_position), -1)` over the active issues of a cell. -/
def maxActivePosition (st : List IssueRow) (p s : String) : Int :=
  match (activePositions st p s).max? with
  | some m => m
  | none => -1

/-- Two rows collide on the partial unique index
`uq_issues_active_status_position`. -/
def posConflict (r1 r2 : IssueRow) : Prop :=
  r1.projectId = r2.projectId ∧ r1.statusId = r2.statusId ∧
  r1.archivedAt = none ∧ r2.archivedAt = none ∧
  r1.statusPosition = r2.statusPosition

instance : DecidableRel posConflict := fun r1 r2 => by
  unfold posConflict; infer_instance

/-- The partial unique index holds of a table state: no two rows collide. -/
def uniqueIndexOK (st : List IssueRow) : Prop :=
  List.Pairwise (fun r1 r2 => ¬ posConflict r1 r2) st

instance : DecidablePred uniqueIndexOK := fun st => by
  unfold uniqueIndexOK; infer_instance

/-- Errors surfaced by the engine (sentinel errors and `errors.New` values of
`internal/issues`, plus the store's unique-index violation). -/
inductive EngineError where
  | validation (msg : String)
  | issueNotFound
  | invalidPriority
  | statusInvalid
  | uniqueViolation
deriving Repr, DecidableEq

/-- An UPDATE statement on `issues`: rows matching the WHERE clause `cond`
are rewritten by `f`, the rest are untouched. -/
def updateRows (cond : IssueRow → Bool) (f : IssueRow → IssueRow)
    (st : List IssueRow) : List IssueRow :=
  st.map (fun r => if cond r then f r else r)

/-- Run one UPDATE statement and let the partial unique index veto the
result, as the relational store does. -/
def runUpdate (cond : IssueRow → Bool) (f : IssueRow → IssueRow)
    (st : List IssueRow) : Except EngineError (List IssueRow) :=
  let st' := updateRows cond f st
  if uniqueIndexOK st' then .ok st' else .error .uniqueViolation

/-- `getIssuePositionForUpdate`: load the active issue row of the project
(`WHERE id = $1 AND project_id = $2 AND archived_at IS NULL FOR UPDATE`). -/
def getIssuePositionForUpdate (st : List IssueRow) (p i : String) :
    Option IssueRow :=
  st.find? (fun r => decide (r.id = i ∧ r.projectId = p ∧ r.archivedAt = none))

/-- `lockStatuses`: the locking SELECT returns one row per matching status;
the count must be 1 for a same-status move and 2 otherwise. -/
def lockStatuses (sts : List StatusRow) (p s t : String) : Bool :=
  let count :=
    (sts.filter (fun row => decide (row.projectId = p ∧ (row.id = s ∨ row.id = t)))).length
  let required := if s = t then 1 else 2
  count = required

/-- `clampTargetPosition`: count the active issues of the target status and
clamp the requested position into `[0, maxPos]`. -/
def clampTargetPosition (st : List IssueRow) (p t : String) (requested : Int)
    (sameStatus : Bool) : Int :=
  let count : Int := ((activeInStatus st p t).length : Int)
  let maxPos0 : Int := if sameStatus then count - 1 else count
  let maxPos : Int := if maxPos0 < 0 then 0 else maxPos0
  if requested < 0 then 0
  else if requested > maxPos then maxPos
  else requested

/-- `parkIssueAtTempPosition`: move the moving issue to
`COALESCE(MAX(status_position), -1) + 1` of its source status. -/
def parkIssueAtTempPosition (now : Int) (p issueId s : String)
    (st : List IssueRow) : Except EngineError (List IssueRow) :=
  let tempPos := maxActivePosition st p s + 1
  runUpdate (fun r => decide (r.id = issueId ∧ r.projectId = p))
    (fun r => { r with statusPosition := tempPos, updatedAt := now }) st

/-- `shiftUpRange`: add 1 to every active position of the cell in
`[startPos, endPos]`, excluding the moving issue, in two phases
(`+K` then `-K+1`). -/
def shiftUpRange (now : Int) (p issueId s : String) (startPos endPos : Int)
    (st : List IssueRow) : Except EngineError (List IssueRow) :=
  if startPos > endPos then .ok st
  else
    match runUpdate
        (fun r => decide (r.projectId = p ∧ r.statusId = s ∧
          r.archivedAt = none ∧ r.id ≠ issueId ∧
          startPos ≤ r.statusPosition ∧ r.statusPosition ≤ endPos))
        (fun r => { r with statusPosition := r.statusPosition + reorderOffset,
                           updatedAt := now }) st with
    | .error e => .error e
    | .ok st1 =>
      runUpdate
        (fun r => decide (r.projectId = p ∧ r.statusId = s ∧
          r.archivedAt = none ∧ r.id ≠ issueId ∧
          startPos + reorderOffset ≤ r.statusPosition ∧
          r.statusPosition ≤ endPos + reorderOffset))
        (fun r => { r with statusPosition := r.statusPosition - reorderOffset + 1,
                           updatedAt := now }) st1

/-- `shiftDownRange`: subtract 1 from every active position of the cell in
`[startPos, endPos]` (`endPos = -1` meaning unbounded above), excluding the
moving issue, in two phases (`+K` then `-K-1`). -/
def shiftDownRange (now : Int) (p issueId s : String) (startPos endPos : Int)
    (st : List IssueRow) : Except EngineError (List IssueRow) :=
  if endPos ≥ 0 ∧ startPos > endPos then .ok st
  else
    match runUpdate
        (fun r => decide (r.projectId = p ∧ r.statusId = s ∧
          r.archivedAt = none ∧ r.id ≠ issueId ∧
          startPos ≤ r.statusPosition ∧
          (endPos ≥ 0 → r.statusPosition ≤ endPos)))
        (fun r => { r with statusPosition := r.statusPosition + reorderOffset,
                           updatedAt := now }) st with
    | .error e => .error e
    | .ok st1 =>
      runUpdate
        (fun r => decide (r.projectId = p ∧ r.statusId = s ∧
          r.archivedAt = none ∧ r.id ≠ issueId ∧
          startPos + reorderOffset ≤ r.statusPosition ∧
          (endPos ≥ 0 → r.statusPosition ≤ endPos + reorderOffset)))
        (fun r => { r with statusPosition := r.statusPosition - reorderOffset - 1,
                           updatedAt := now }) st1

/-- `reorderWithinSameStatus`: dispatch on the direction of the move. -/
def reorderWithinSameStatus (now : Int) (p issueId statusId : String)
    (sourcePos targetPos : Int) (st : List IssueRow) :
    Except EngineError (List IssueRow) :=
  if targetPos < sourcePos then
    shiftUpRange now p issueId statusId targetPos (sourcePos - 1) st
  else if targetPos > sourcePos then
    shiftDownRange now p issueId statusId (sourcePos + 1) targetPos st
  else .ok st

/-- `collapseSourceStatus`: close the gap the moving issue leaves behind. -/
def collapseSourceStatus (now : Int) (p issueId statusId : String)
    (sourcePos : Int) (st : List IssueRow) :
    Except EngineError (List IssueRow) :=
  shiftDownRange now p issueId statusId (sourcePos + 1) (-1) st

/-- `openGapInTargetStatus`: shift active positions `≥ targetPos` of the
target cell up by one, in two phases (`+K` then `-K+1`), no id filter. -/
def openGapInTargetStatus (now : Int) (p statusId : String) (targetPos : Int)
    (st : List IssueRow) : Except EngineError (List IssueRow) :=
  match runUpdate
      (fun r => decide (r.projectId = p ∧ r.statusId = statusId ∧
        r.archivedAt = none ∧ targetPos ≤ r.statusPosition))
      (fun r => { r with statusPosition := r.statusPosition + reorderOffset,
                         updatedAt := now }) st with
  | .error e => .error e
  | .ok st1 =>
    runUpdate
      (fun r => decide (r.projectId = p ∧ r.statusId = statusId ∧
        r.archivedAt = none ∧ targetPos + reorderOffset ≤ r.statusPosition))
      (fun r => { r with statusPosition := r.statusPosition - reorderOffset + 1,
                         updatedAt := now }) st1

/-- Parameters of `MoveIssue`. -/
structure MoveIssueParams where
  projectId : String
  issueId : String
  targetStatusId : String
  targetPosition : Int
deriving Repr, DecidableEq

/-- `moveIssue` (store.go): the whole move transaction.  An error means the
transaction rolled back, so the caller keeps the unmodified store; `.ok`
carries the committed store.  `lockAffectedIssues` only acquires row locks
and is not modelled. -/
def moveIssue (now : Int) (store : Store) (params : MoveIssueParams) :
    Except EngineError Store :=
  match getIssuePositionForUpdate store.issues params.projectId params.issueId with
  | none => .error .issueNotFound
  | some current =>
    let sourceStatusId := current.statusId
    let targetStatusId :=
      if params.targetStatusId = "" then sourceStatusId else params.targetStatusId
    if lockStatuses store.statuses params.projectId sourceStatusId targetStatusId then
      let targetPos := clampTargetPosition store.issues params.projectId
        targetStatusId params.targetPosition
        (decide (sourceStatusId = targetStatusId))
      if sourceStatusId = targetStatusId ∧ targetPos = current.statusPosition then
        .ok store
      else
        match parkIssueAtTempPosition now params.projectId params.issueId
            sourceStatusId store.issues with
        | .error e => .error e
        | .ok st1 =>
          let shifted :=
            if sourceStatusId = targetStatusId then
              reorderWithinSameStatus now params.projectId params.issueId
                sourceStatusId current.statusPosition targetPos st1
            else
              match collapseSourceStatus now params.projectId params.issueId
                  sourceStatusId current.statusPosition st1 with
              | .error e => .error e
              | .ok st2 =>
                openGapInTargetStatus now params.projectId targetStatusId
                  targetPos st2
          match shifted with
          | .error e => .error e
          | .ok st2 =>
            match runUpdate
                (fun r => decide (r.id = params.issueId ∧ r.projectId = params.projectId))
                (fun r => { r with statusId := targetStatusId,
                                   statusPosition := targetPos,
                                   updatedAt := now }) st2 with
            | .error e => .error e
            | .ok st3 => .ok { store with issues := st3 }
    else .error .statusInvalid

/-- `MoveIssueParams.Validate`. -/
def MoveIssueParams.validate (p : MoveIssueParams) : Option EngineError :=
  if p.projectId = "" ∨ p.issueId = "" then
    some (.validation "project_id and issue_id are required")
  else if p.targetPosition < 0 then
    some (.validation "target_position must be >= 0")
  else none

/-- `MoveIssue`: the exported entry point (the `db == nil` guard is not
representable here). -/
def MoveIssue (now : Int) (store : Store) (p : MoveIssueParams) :
    Except EngineError Store :=
  match p.validate with
  | some e => .error e
  | none => moveIssue now store p

/-- The priorities accepted by `validPriorities` in issues.go. -/
def validPriorities : List String := ["low", "medium", "high", "critical"]

/-- Parameters of `CreateIssue`. -/
structure CreateIssueParams where
  projectId : String
  issueTypeId : String
  statusId : String
  parentIssueId : String
  title : String
  description : String
  priority : String
  assigneeId : String
  reporterId : String
  dueDate : Option Int
deriving Repr, DecidableEq

/-- `CreateIssueParams.Validate`: required fields, then the priority check
with the empty priority defaulting to "medium". -/
def CreateIssueParams.validate (p : CreateIssueParams) : Option EngineError :=
  if p.projectId = "" then some (.validation "project_id is required")
  else if p.issueTypeId = "" then some (.validation "issue_type_id is required")
  else if p.statusId = "" then some (.validation "status_id is required")
  else if p.title = "" then some (.validation "title is required")
  else if p.reporterId = "" then some (.validation "reporter_id is required")
  else
    let priority := if p.priority = "" then "medium" else p.priority
    if validPriorities.contains priority then none else some .invalidPriority

/-- The `project_issue_counters` upsert: insert `(p, 1)` or bump
`last_number`, returning the new value. -/
def upsertCounter (counters : List (String × Int)) (p : String) :
    Int × List (String × Int) :=
  match counters.find? (fun c => decide (c.fst = p)) with
  | none => (1, (p, 1) :: counters)
  | some c =>
    (c.snd + 1,
     counters.map (fun d => if d.fst = p then (d.fst, d.snd + 1) else d))

/-- `createIssue` (store.go): counter upsert, then the INSERT whose
`status_position` sub-select is `COALESCE(MAX(status_position), -1) + 1`
over the active issues of the same cell.  The fresh row id and the clock are
inputs of the model. -/
def createIssue (newId : String) (now : Int) (store : Store)
    (params : CreateIssueParams) : Except EngineError (IssueRow × Store) :=
  let bumped := upsertCounter store.counters params.projectId
  let row : IssueRow :=
    { id := newId
      projectId := params.projectId
      number := bumped.fst
      issueTypeId := params.issueTypeId
      statusId := params.statusId
      parentIssueId := if params.parentIssueId = "" then none else some params.parentIssueId
      title := params.title
      description := params.description
      priority := params.priority
      assigneeId := if params.assigneeId = "" then none else some params.assigneeId
      reporterId := params.reporterId
      dueDate := params.dueDate
      statusPosition :=
        maxActivePosition store.issues params.projectId params.statusId + 1
      createdAt := now
      updatedAt := now
      archivedAt := none }
  let issues' := store.issues ++ [row]
  if uniqueIndexOK issues' then
    .ok (row, { store with issues := issues', counters := bumped.snd })
  else .error .uniqueViolation

/-- `CreateIssue`: validate, default an empty priority to "medium", insert. -/
def CreateIssue (newId : String) (now : Int) (store : Store)
    (p : CreateIssueParams) : Except EngineError (IssueRow × Store) :=
  match p.validate with
  | some e => .error e
  | none =>
    let p' := if p.priority = "" then { p with priority := "medium" } else p
    createIssue newId now store p'

/-- Parameters of `UpdateIssue`. -/
structure UpdateIssueParams where
  issueId : String
  projectId : String
  title : String
  description : String
  priority : String
  assigneeId : Option String
  dueDate : Option Int
deriving Repr, DecidableEq

/-- `UpdateIssueParams.Validate`: unlike creation, the priority is checked
as given — an empty priority is rejected. -/
def UpdateIssueParams.validate (p : UpdateIssueParams) : Option EngineError :=
  if p.issueId = "" then some (.validation "issue_id is required")
  else if p.projectId = "" then some (.validation "project_id is required")
  else if p.title = "" then some (.validation "title is required")
  else if validPriorities.contains p.priority then none
  else some .invalidPriority

/-- `archiveIssue` (store.go): one UPDATE setting `archived_at = NOW()` on
the active row (the `updated_at` trigger also fires); zero rows affected
means `ErrIssueNotFound`. -/
def archiveIssue (now : Int) (store : Store) (projectId issueId : String) :
    Except EngineError Store :=
  let cond := fun (r : IssueRow) =>
    decide (r.id = issueId ∧ r.projectId = projectId ∧ r.archivedAt = none)
  let affected := (store.issues.filter cond).length
  let issues' := updateRows cond
    (fun r => { r with archivedAt := some now, updatedAt := now }) store.issues
  if affected = 0 then .error .issueNotFound
  else .ok { store with issues := issues' }

/-- `ArchiveIssue`: the exported entry point with its empty-id guards. -/
def ArchiveIssue (now : Int) (store : Store) (projectId issueId : String) :
    Except EngineError Store :=
  if projectId = "" then .error (.validation "project_id is required")
  else if issueId = "" then .error (.validation "issue_id is required")
  else archiveIssue now store projectId issueId

/-- Primary-key well-formedness of the issues table: ids are distinct. -/
def idsNodup (st : List IssueRow) : Prop := (st.map IssueRow.id).Nodup

instance : DecidablePred idsNodup := fun st => by
  unfold idsNodup; infer_instance

/-- I1 and I2 of the spec for one `(project, status)` cell: active positions
are pairwise distinct and are exactly `{0 .. N-1}` for `N` the active
count. -/
def StatusContiguous (st : List IssueRow) (p s : String) : Prop :=
  (activePositions st p s).Nodup ∧
  ∀ q : Int, q ∈ activePositions st p s ↔
    0 ≤ q ∧ q < ((activeInStatus st p s).length : Int)

instance instDecStatusContiguous :
    ∀ st p s, Decidable (StatusContiguous st p s) := fun st p s =>
  decidable_of_iff
    ((activePositions st p s).Nodup ∧
      ((activePositions st p s).all fun q =>
        decide (0 ≤ q ∧ q < ((activeInStatus st p s).length : Int))) = true ∧
      ∀ q ∈ List.range (activeInStatus st p s).length,
        ((q : Int) ∈ activePositions st p s))
    (by
      constructor
      · rintro ⟨h1, h2, h3⟩
        refine ⟨h1, fun q => ⟨?_, ?_⟩⟩
        · intro hq
          rw [List.all_eq_true] at h2
          exact of_decide_eq_true (h2 q hq)
        · rintro ⟨hq0, hqN⟩
          obtain ⟨n, rfl⟩ := Int.eq_ofNat_of_zero_le hq0
          exact h3 n (List.mem_range.mpr (by exact_mod_cast hqN))
      · rintro ⟨h1, h2⟩
        refine ⟨h1, ?_, ?_⟩
        · rw [List.all_eq_true]
          intro q hq
          exact decide_eq_true ((h2 q).mp hq)
        · intro q hq
          rw [List.mem_range] at hq
          exact (h2 q).mpr ⟨Int.ofNat_nonneg q, by exact_mod_cast hq⟩)

instance instDecEqExcept {ε α : Type} [DecidableEq ε] [DecidableEq α] :
    DecidableEq (Except ε α) := fun a b =>
  match a, b with
  | .ok x, .ok y =>
    decidable_of_iff (x = y)
      ⟨fun h => by rw [h], fun h => by injection h⟩
  | .error x, .error y =>
    decidable_of_iff (x = y)
      ⟨fun h => by rw [h], fun h => by injection h⟩
  | .ok _, .error _ => isFalse (by simp)
  | .error _, .ok _ => isFalse (by simp)

/-! ### Basic lemmas about the embedding -/

lemma isActiveInStatus_iff {p s : String} {r : IssueRow} :
    isActiveInStatus p s r = true ↔
      r.projectId = p ∧ r.statusId = s ∧ r.archivedAt = none := by
  simp [isActiveInStatus]

lemma mem_activeInStatus {st : List IssueRow} {p s : String} {r : IssueRow} :
    r ∈ activeInStatus st p s ↔
      r ∈ st ∧ r.projectId = p ∧ r.statusId = s ∧ r.archivedAt = none := by
  simp [activeInStatus, List.mem_filter, isActiveInStatus]

lemma mem_activePositions {st : List IssueRow} {p s : String} {q : Int} :
    q ∈ activePositions st p s ↔
      ∃ r, r ∈ st ∧ r.projectId = p ∧ r.statusId = s ∧ r.archivedAt = none ∧
        r.statusPosition = q := by
  constructor
  · intro h
    rcases List.mem_map.mp h with ⟨r, hr, hq⟩
    rcases mem_activeInStatus.mp hr with ⟨h1, h2, h3, h4⟩
    exact ⟨r, h1, h2, h3, h4, hq⟩
  · rintro ⟨r, h1, h2, h3, h4, h5⟩
    exact List.mem_map.mpr ⟨r, mem_activeInStatus.mpr ⟨h1, h2, h3, h4⟩, h5⟩

lemma mem_activePositions_map {st : List IssueRow} {g : IssueRow → IssueRow}
    {p s : String} {q : Int} :
    q ∈ activePositions (st.map g) p s ↔
      ∃ r, r ∈ st ∧ (g r).projectId = p ∧ (g r).statusId = s ∧
        (g r).archivedAt = none ∧ (g r).statusPosition = q := by
  rw [mem_activePositions]
  constructor
  · rintro ⟨r, hr, h⟩
    rcases List.mem_map.mp hr with ⟨r0, hr0, rfl⟩
    exact ⟨r0, hr0, h⟩
  · rintro ⟨r, hr, h⟩
    exact ⟨g r, List.mem_map.mpr ⟨r, hr, rfl⟩, h⟩

lemma posConflict_symm {a b : IssueRow} (h : posConflict a b) : posConflict b a := by
  obtain ⟨h1, h2, h3, h4, h5⟩ := h
  exact ⟨h1.symm, h2.symm, h4, h3, h5.symm⟩

lemma not_posConflict_symmetric : Symmetric (fun r1 r2 => ¬ posConflict r1 r2) :=
  fun _ _ h hc => h (posConflict_symm hc)

/-- From a conflict-free table state: two distinct rows never collide. -/
lemma uniqueIndexOK_forall {st : List IssueRow} (h : uniqueIndexOK st)
    {a b : IssueRow} (ha : a ∈ st) (hb : b ∈ st) (hne : a ≠ b) :
    ¬ posConflict a b :=
  (List.Pairwise.forall not_posConflict_symmetric h) ha hb hne

/-- A conflict-free table state has pairwise-distinct active positions in
every cell. -/
lemma uniqueIndexOK_nodup {st : List IssueRow} (h : uniqueIndexOK st)
    (p s : String) : (activePositions st p s).Nodup := by
  unfold activePositions List.Nodup
  rw [List.pairwise_map]
  have hsub : List.Pairwise (fun r1 r2 => ¬ posConflict r1 r2) (activeInStatus st p s) :=
    List.Pairwise.sublist (List.filter_sublist st) h
  refine List.Pairwise.imp_of_mem ?_ hsub
  intro a b ha hb hnc
  rcases mem_activeInStatus.mp ha with ⟨_, hap, has, haa⟩
  rcases mem_activeInStatus.mp hb with ⟨_, hbp, hbs, hba⟩
  intro heq
  exact hnc ⟨hap.trans hbp.symm, has.trans hbs.symm, haa, hba, heq⟩

lemma idsNodup_inj {st : List IssueRow} (h : idsNodup st) {a b : IssueRow}
    (ha : a ∈ st) (hb : b ∈ st) (hid : a.id = b.id) : a = b :=
  List.inj_on_of_nodup_map h ha hb hid

lemma idsNodup_map {st : List IssueRow} {g : IssueRow → IssueRow}
    (hg : ∀ r, (g r).id = r.id) (h : idsNodup st) : idsNodup (st.map g) := by
  unfold idsNodup
  rw [List.map_map]
  have : st.map (IssueRow.id ∘ g) = st.map IssueRow.id :=
    List.map_congr_left (fun r _ => hg r)
  rw [this]; exact h

lemma le_maxActivePosition {st : List IssueRow} {p s : String} {r : IssueRow}
    (hr : r ∈ st) (hp : r.projectId = p) (hs : r.statusId = s)
    (ha : r.archivedAt = none) :
    r.statusPosition ≤ maxActivePosition st p s := by
  have hq : r.statusPosition ∈ activePositions st p s :=
    mem_activePositions.mpr ⟨r, hr, hp, hs, ha, rfl⟩
  unfold maxActivePosition
  cases hmax : (activePositions st p s).max? with
  | none =>
    rw [List.max?_eq_none_iff] at hmax
    rw [hmax] at hq
    exact absurd hq (List.not_mem_nil _)
  | some m =>
    have := (List.max?_le_iff (fun _ _ _ => max_le_iff) hmax).mp (le_refl m)
    exact this _ hq

/-- Under I1/I2 with at least one active issue, the cell maximum is `N-1`. -/
lemma maxActivePosition_eq {st : List IssueRow} {p s : String}
    (hc : StatusContiguous st p s) (hN : 0 < (activeInStatus st p s).length) :
    maxActivePosition st p s = ((activeInStatus st p s).length : Int) - 1 := by
  set N : Int := ((activeInStatus st p s).length : Int) with hNdef
  have hN1 : 1 ≤ N := by rw [hNdef]; exact_mod_cast hN
  have hmem : N - 1 ∈ activePositions st p s :=
    (hc.2 (N - 1)).mpr ⟨by omega, by omega⟩
  unfold maxActivePosition
  cases hmax : (activePositions st p s).max? with
  | none =>
    rw [List.max?_eq_none_iff] at hmax
    rw [hmax] at hmem
    exact absurd hmem (List.not_mem_nil _)
  | some m =>
    have hmm : m ∈ activePositions st p s := List.max?_mem max_choice hmax
    have hmlt : m < N := ((hc.2 m).mp hmm).2
    have hub := (List.max?_le_iff (fun _ _ _ => max_le_iff) hmax).mp (le_refl m)
    have := hub _ hmem
    show m = N - 1
    omega

lemma runUpdate_ok {cond : IssueRow → Bool} {f : IssueRow → IssueRow}
    {st out : List IssueRow} :
    runUpdate cond f st = .ok out ↔
      uniqueIndexOK (updateRows cond f st) ∧ out = updateRows cond f st := by
  unfold runUpdate
  by_cases h : uniqueIndexOK (updateRows cond f st) <;> simp [h, eq_comm]

lemma getIssuePositionForUpdate_some {st : List IssueRow} {p i : String}
    {cur : IssueRow} (h : getIssuePositionForUpdate st p i = some cur) :
    cur ∈ st ∧ cur.id = i ∧ cur.projectId = p ∧ cur.archivedAt = none := by
  refine ⟨List.mem_of_find?_eq_some h, ?_⟩
  have := List.find?_some h
  simpa using this

lemma getIssuePositionForUpdate_none {st : List IssueRow} {p i : String} :
    getIssuePositionForUpdate st p i = none ↔
      ∀ r ∈ st, ¬(r.id = i ∧ r.projectId = p ∧ r.archivedAt = none) := by
  unfold getIssuePositionForUpdate
  rw [List.find?_eq_none]
  constructor
  · intro h r hr hc
    exact (h r hr) (by simpa using hc)
  · intro h r hr
    simpa using h r hr

/-- `max_pos` of §4.3.1-step-5: `N_T - 1` for a same-status move, `N_T`
otherwise, floored at 0. -/
def legalMaxPos (st : List IssueRow) (p t : String) (sameStatus : Bool) : Int :=
  let count : Int := ((activeInStatus st p t).length : Int)
  let maxPos0 : Int := if sameStatus then count - 1 else count
  if maxPos0 < 0 then 0 else maxPos0

lemma clampTargetPosition_eq {st : List IssueRow} {p t : String}
    {requested : Int} {sameStatus : Bool} :
    clampTargetPosition st p t requested sameStatus =
      if requested < 0 then 0
      else if requested > legalMaxPos st p t sameStatus then legalMaxPos st p t sameStatus
      else requested := rfl

lemma legalMaxPos_nonneg {st : List IssueRow} {p t : String} {sameStatus : Bool} :
    0 ≤ legalMaxPos st p t sameStatus := by
  have h : ∀ x : Int, 0 ≤ (if x < 0 then 0 else x) := by intro x; split <;> omega
  exact h _

lemma clampTargetPosition_bounds {st : List IssueRow} {p t : String}
    {requested : Int} {sameStatus : Bool} :
    0 ≤ clampTargetPosition st p t requested sameStatus ∧
      clampTargetPosition st p t requested sameStatus ≤ legalMaxPos st p t sameStatus := by
  have hm := @legalMaxPos_nonneg st p t sameStatus
  rw [clampTargetPosition_eq]
  constructor
  · split
    · omega
    · split <;> omega
  · split
    · omega
    · split <;> omega

/-! ### Net-effect characterizations of the two-phase shifts -/

lemma updateRows_eq_map_prop (P : IssueRow → Prop) [DecidablePred P]
    (f : IssueRow → IssueRow) (st : List IssueRow) :
    updateRows (fun r => decide (P r)) f st =
      st.map (fun r => if P r then f r else r) := by
  unfold updateRows
  exact List.map_congr_left (fun r _ => by by_cases h : P r <;> simp [h])

lemma row_update_collapse (r : IssueRow) (x y u v : Int) :
    ({ { r with statusPosition := x, updatedAt := u } with
        statusPosition := y, updatedAt := v } : IssueRow) =
      { r with statusPosition := y, updatedAt := v } := rfl

lemma reorderOffset_pos : 0 < reorderOffset := by decide

/-- Fuse the two checked UPDATE statements of a shift into one `List.map`,
given a pointwise description of their composite. -/
lemma two_phase_map_congr
    (P1 P2 Q : IssueRow → Prop) [DecidablePred P1] [DecidablePred P2]
    [DecidablePred Q]
    (f1 f2 g : IssueRow → IssueRow) (st : List IssueRow)
    (h : ∀ r ∈ st,
      (if P2 (if P1 r then f1 r else r) then f2 (if P1 r then f1 r else r)
       else (if P1 r then f1 r else r)) = if Q r then g r else r) :
    updateRows (fun r => decide (P2 r)) f2
        (updateRows (fun r => decide (P1 r)) f1 st) =
      st.map (fun r => if Q r then g r else r) := by
  rw [updateRows_eq_map_prop, updateRows_eq_map_prop, List.map_map]
  refine List.map_congr_left (fun r hr => ?_)
  simpa using h r hr

/-- A successful unbounded down-shift subtracts exactly 1 from every active
position `≥ startPos` of the cell, sparing the moving issue. -/
lemma shiftDownRange_unbounded_ok_eq {now : Int} {p i s : String} {a : Int}
    {st out : List IssueRow}
    (hok : shiftDownRange now p i s a (-1) st = .ok out) :
    out = st.map (fun r =>
      if r.projectId = p ∧ r.statusId = s ∧ r.archivedAt = none ∧ r.id ≠ i ∧
          a ≤ r.statusPosition
      then { r with statusPosition := r.statusPosition - 1, updatedAt := now }
      else r) := by
  unfold shiftDownRange at hok
  rw [if_neg (by omega)] at hok
  cases h1 : runUpdate
      (fun r => decide (r.projectId = p ∧ r.statusId = s ∧
        r.archivedAt = none ∧ r.id ≠ i ∧ a ≤ r.statusPosition ∧
        ((-1 : Int) ≥ 0 → r.statusPosition ≤ -1)))
      (fun r => { r with statusPosition := r.statusPosition + reorderOffset,
                         updatedAt := now }) st with
  | error e => rw [h1] at hok; exact absurd hok (by simp)
  | ok st1 =>
    rw [h1] at hok
    obtain ⟨hu1, rfl⟩ := runUpdate_ok.mp h1
    obtain ⟨hu2, rfl⟩ := runUpdate_ok.mp hok
    refine two_phase_map_congr _ _ _ _ _ _ st (fun r hr => ?_)
    have hK := reorderOffset_pos
    by_cases hq : r.projectId = p ∧ r.statusId = s ∧ r.archivedAt = none ∧
        r.id ≠ i ∧ a ≤ r.statusPosition
    · obtain ⟨h1', h2', h3', h4', h5'⟩ := hq
      have hp1 : r.projectId = p ∧ r.statusId = s ∧ r.archivedAt = none ∧
          r.id ≠ i ∧ a ≤ r.statusPosition ∧
          ((-1 : Int) ≥ 0 → r.statusPosition ≤ -1) :=
        ⟨h1', h2', h3', h4', h5', by omega⟩
      rw [if_pos hp1]
      rw [if_pos (by
        refine ⟨h1', h2', h3', h4', ?_, ?_⟩
        · show a + reorderOffset ≤ r.statusPosition + reorderOffset
          omega
        · intro hcontra
          exact absurd hcontra (by norm_num))]
      rw [if_pos (show r.projectId = p ∧ r.statusId = s ∧ r.archivedAt = none ∧
            r.id ≠ i ∧ a ≤ r.statusPosition from ⟨h1', h2', h3', h4', h5'⟩)]
      rw [row_update_collapse]
      have harith : r.statusPosition + reorderOffset - reorderOffset - 1 =
        r.statusPosition - 1 := by omega
      rw [harith]
    · have hp1 : ¬(r.projectId = p ∧ r.statusId = s ∧ r.archivedAt = none ∧
          r.id ≠ i ∧ a ≤ r.statusPosition ∧
          ((-1 : Int) ≥ 0 → r.statusPosition ≤ -1)) := by
        rintro ⟨h1', h2', h3', h4', h5', -⟩
        exact hq ⟨h1', h2', h3', h4', h5'⟩
      rw [if_neg hp1]
      rw [if_neg (show ¬(r.projectId = p ∧ r.statusId = s ∧
          r.archivedAt = none ∧ r.id ≠ i ∧
          a + reorderOffset ≤ r.statusPosition ∧
          ((-1 : Int) ≥ 0 → r.statusPosition ≤ -1 + reorderOffset)) from by
        rintro ⟨h1', h2', h3', h4', h5', -⟩
        exact hq ⟨h1', h2', h3', h4', by omega⟩)]
      rw [if_neg hq]

/-- A successful gap-opening adds exactly 1 to every active position
`≥ targetPos` of the target cell. -/
lemma openGapInTargetStatus_ok_eq {now : Int} {p s : String} {tgt : Int}
    {st out : List IssueRow}
    (hok : openGapInTargetStatus now p s tgt st = .ok out) :
    out = st.map (fun r =>
      if r.projectId = p ∧ r.statusId = s ∧ r.archivedAt = none ∧
          tgt ≤ r.statusPosition
      then { r with statusPosition := r.statusPosition + 1, updatedAt := now }
      else r) := by
  unfold openGapInTargetStatus at hok
  cases h1 : runUpdate
      (fun r => decide (r.projectId = p ∧ r.statusId = s ∧
        r.archivedAt = none ∧ tgt ≤ r.statusPosition))
      (fun r => { r with statusPosition := r.statusPosition + reorderOffset,
                         updatedAt := now }) st with
  | error e => rw [h1] at hok; exact absurd hok (by simp)
  | ok st1 =>
    rw [h1] at hok
    obtain ⟨hu1, rfl⟩ := runUpdate_ok.mp h1
    obtain ⟨hu2, rfl⟩ := runUpdate_ok.mp hok
    refine two_phase_map_congr _ _ _ _ _ _ st (fun r hr => ?_)
    have hK := reorderOffset_pos
    by_cases hq : r.projectId = p ∧ r.statusId = s ∧ r.archivedAt = none ∧
        tgt ≤ r.statusPosition
    · obtain ⟨h1', h2', h3', h4'⟩ := hq
      have hp1 : r.projectId = p ∧ r.statusId = s ∧ r.archivedAt = none ∧
          tgt ≤ r.statusPosition := ⟨h1', h2', h3', h4'⟩
      rw [if_pos hp1]
      rw [if_pos (by
        refine ⟨h1', h2', h3', ?_⟩
        show tgt + reorderOffset ≤ r.statusPosition + reorderOffset
        omega)]
      rw [if_pos hp1]
      rw [row_update_collapse]
      have harith : r.statusPosition + reorderOffset - reorderOffset + 1 =
        r.statusPosition + 1 := by omega
      rw [harith]
    · rw [if_neg hq]
      rw [if_neg (show ¬(r.projectId = p ∧ r.statusId = s ∧
          r.archivedAt = none ∧ tgt + reorderOffset ≤ r.statusPosition) from by
        rintro ⟨h1', h2', h3', h4'⟩
        exact hq ⟨h1', h2', h3', by omega⟩)]
      rw [if_neg hq]

/-- In a conflict-free state, an active position determines the row of its
cell uniquely. -/
lemma uniqueIndexOK_pos_inj {st1 : List IssueRow} (hu : uniqueIndexOK st1)
    {p s : String} {x y : IssueRow}
    (hx : x ∈ st1) (hy : y ∈ st1)
    (hxp : x.projectId = p) (hxs : x.statusId = s) (hxa : x.archivedAt = none)
    (hyp : y.projectId = p) (hys : y.statusId = s) (hya : y.archivedAt = none)
    (hpos : x.statusPosition = y.statusPosition) : x = y := by
  by_cases h : x = y
  · exact h
  · exact absurd ⟨hxp.trans hyp.symm, hxs.trans hys.symm, hxa, hya, hpos⟩
      (uniqueIndexOK_forall hu hx hy h)

/-- A successful bounded up-shift adds exactly 1 to every active position of
the cell in `[startPos, endPos]`, sparing the moving issue, provided every
value of the range is realized by some non-moving active row (phase 1 then
covers the phase-2 window, and the unique index rules out stragglers). -/
lemma shiftUpRange_ok_eq {now : Int} {p i s : String} {a b : Int}
    {st out : List IssueRow}
    (hok : shiftUpRange now p i s a b st = .ok out)
    (hab : a ≤ b)
    (hids : idsNodup st)
    (hcover : ∀ v : Int, a ≤ v → v ≤ b → ∃ r, r ∈ st ∧ r.projectId = p ∧
      r.statusId = s ∧ r.archivedAt = none ∧ r.id ≠ i ∧ r.statusPosition = v) :
    out = st.map (fun r =>
      if r.projectId = p ∧ r.statusId = s ∧ r.archivedAt = none ∧ r.id ≠ i ∧
          a ≤ r.statusPosition ∧ r.statusPosition ≤ b
      then { r with statusPosition := r.statusPosition + 1, updatedAt := now }
      else r) := by
  unfold shiftUpRange at hok
  rw [if_neg (by omega)] at hok
  cases h1 : runUpdate
      (fun r => decide (r.projectId = p ∧ r.statusId = s ∧
        r.archivedAt = none ∧ r.id ≠ i ∧
        a ≤ r.statusPosition ∧ r.statusPosition ≤ b))
      (fun r => { r with statusPosition := r.statusPosition + reorderOffset,
                         updatedAt := now }) st with
  | error e => rw [h1] at hok; exact absurd hok (by simp)
  | ok st1 =>
    rw [h1] at hok
    obtain ⟨hu1, rfl⟩ := runUpdate_ok.mp h1
    obtain ⟨hu2, rfl⟩ := runUpdate_ok.mp hok
    rw [updateRows_eq_map_prop (fun r => r.projectId = p ∧ r.statusId = s ∧
      r.archivedAt = none ∧ r.id ≠ i ∧
      a ≤ r.statusPosition ∧ r.statusPosition ≤ b)] at hu1
    refine two_phase_map_congr _ _ _ _ _ _ st (fun r hr => ?_)
    have hK := reorderOffset_pos
    by_cases hq : r.projectId = p ∧ r.statusId = s ∧ r.archivedAt = none ∧
        r.id ≠ i ∧ a ≤ r.statusPosition ∧ r.statusPosition ≤ b
    · obtain ⟨h1', h2', h3', h4', h5', h6'⟩ := hq
      have hp1 : r.projectId = p ∧ r.statusId = s ∧ r.archivedAt = none ∧
          r.id ≠ i ∧ a ≤ r.statusPosition ∧ r.statusPosition ≤ b :=
        ⟨h1', h2', h3', h4', h5', h6'⟩
      rw [if_pos hp1]
      rw [if_pos (by
        refine ⟨h1', h2', h3', h4', ?_, ?_⟩
        · show a + reorderOffset ≤ r.statusPosition + reorderOffset
          omega
        · show r.statusPosition + reorderOffset ≤ b + reorderOffset
          omega)]
      rw [if_pos hp1]
      rw [row_update_collapse]
      have harith : r.statusPosition + reorderOffset - reorderOffset + 1 =
        r.statusPosition + 1 := by omega
      rw [harith]
    · rw [if_neg hq]
      rw [if_neg (show ¬(r.projectId = p ∧ r.statusId = s ∧
          r.archivedAt = none ∧ r.id ≠ i ∧
          a + reorderOffset ≤ r.statusPosition ∧
          r.statusPosition ≤ b + reorderOffset) from by
        rintro ⟨h1', h2', h3', h4', h5', h6'⟩
        have hnotrange : ¬(a ≤ r.statusPosition ∧ r.statusPosition ≤ b) :=
          fun hrange => hq ⟨h1', h2', h3', h4', hrange.1, hrange.2⟩
        obtain ⟨w, hw, hwp, hws, hwa, hwi, hwv⟩ :=
          hcover (r.statusPosition - reorderOffset) (by omega) (by omega)
        have hwr : w ≠ r := by
          intro heq
          rw [heq] at hwv
          omega
        have hwid : w.id ≠ r.id := fun heq => hwr (idsNodup_inj hids hw hr heq)
        have hcondw : w.projectId = p ∧ w.statusId = s ∧ w.archivedAt = none ∧
            w.id ≠ i ∧ a ≤ w.statusPosition ∧ w.statusPosition ≤ b :=
          ⟨hwp, hws, hwa, hwi, by omega, by omega⟩
        have hmw := List.mem_map_of_mem (fun r =>
          if r.projectId = p ∧ r.statusId = s ∧ r.archivedAt = none ∧
              r.id ≠ i ∧ a ≤ r.statusPosition ∧ r.statusPosition ≤ b
          then { r with statusPosition := r.statusPosition + reorderOffset,
                        updatedAt := now }
          else r) hw
        simp only [if_pos hcondw] at hmw
        have hmr := List.mem_map_of_mem (fun r =>
          if r.projectId = p ∧ r.statusId = s ∧ r.archivedAt = none ∧
              r.id ≠ i ∧ a ≤ r.statusPosition ∧ r.statusPosition ≤ b
          then { r with statusPosition := r.statusPosition + reorderOffset,
                        updatedAt := now }
          else r) hr
        simp only [if_neg hq] at hmr
        have heq := uniqueIndexOK_pos_inj hu1 hmw hmr hwp hws hwa h1' h2' h3'
          (by show w.statusPosition + reorderOffset = r.statusPosition; omega)
        have hideq : w.id = r.id := by
          have := congrArg IssueRow.id heq
          simpa using this
        exact hwid hideq)]
      rw [if_neg hq]

/-- A successful bounded down-shift subtracts exactly 1 from every active
position of the cell in `[startPos, endPos]`, sparing the moving issue,
under the same coverage proviso as the up-shift. -/
lemma shiftDownRange_bounded_ok_eq {now : Int} {p i s : String} {a b : Int}
    {st out : List IssueRow}
    (hok : shiftDownRange now p i s a b st = .ok out)
    (hb : 0 ≤ b) (hab : a ≤ b)
    (hids : idsNodup st)
    (hcover : ∀ v : Int, a ≤ v → v ≤ b → ∃ r, r ∈ st ∧ r.projectId = p ∧
      r.statusId = s ∧ r.archivedAt = none ∧ r.id ≠ i ∧ r.statusPosition = v) :
    out = st.map (fun r =>
      if r.projectId = p ∧ r.statusId = s ∧ r.archivedAt = none ∧ r.id ≠ i ∧
          a ≤ r.statusPosition ∧ r.statusPosition ≤ b
      then { r with statusPosition := r.statusPosition - 1, updatedAt := now }
      else r) := by
  unfold shiftDownRange at hok
  rw [if_neg (by omega)] at hok
  cases h1 : runUpdate
      (fun r => decide (r.projectId = p ∧ r.statusId = s ∧
        r.archivedAt = none ∧ r.id ≠ i ∧ a ≤ r.statusPosition ∧
        (b ≥ 0 → r.statusPosition ≤ b)))
      (fun r => { r with statusPosition := r.statusPosition + reorderOffset,
                         updatedAt := now }) st with
  | error e => rw [h1] at hok; exact absurd hok (by simp)
  | ok st1 =>
    rw [h1] at hok
    obtain ⟨hu1, rfl⟩ := runUpdate_ok.mp h1
    obtain ⟨hu2, rfl⟩ := runUpdate_ok.mp hok
    rw [updateRows_eq_map_prop (fun r => r.projectId = p ∧ r.statusId = s ∧
      r.archivedAt = none ∧ r.id ≠ i ∧ a ≤ r.statusPosition ∧
      (b ≥ 0 → r.statusPosition ≤ b))] at hu1
    refine two_phase_map_congr _ _ _ _ _ _ st (fun r hr => ?_)
    have hK := reorderOffset_pos
    by_cases hq : r.projectId = p ∧ r.statusId = s ∧ r.archivedAt = none ∧
        r.id ≠ i ∧ a ≤ r.statusPosition ∧ r.statusPosition ≤ b
    · obtain ⟨h1', h2', h3', h4', h5', h6'⟩ := hq
      have hp1 : r.projectId = p ∧ r.statusId = s ∧ r.archivedAt = none ∧
          r.id ≠ i ∧ a ≤ r.statusPosition ∧ (b ≥ 0 → r.statusPosition ≤ b) :=
        ⟨h1', h2', h3', h4', h5', fun _ => h6'⟩
      rw [if_pos hp1]
      rw [if_pos (by
        refine ⟨h1', h2', h3', h4', ?_, ?_⟩
        · show a + reorderOffset ≤ r.statusPosition + reorderOffset
          omega
        · intro hb0
          show r.statusPosition + reorderOffset ≤ b + reorderOffset
          omega)]
      rw [if_pos (show r.projectId = p ∧ r.statusId = s ∧ r.archivedAt = none ∧
            r.id ≠ i ∧ a ≤ r.statusPosition ∧ r.statusPosition ≤ b from
            ⟨h1', h2', h3', h4', h5', h6'⟩)]
      rw [row_update_collapse]
      have harith : r.statusPosition + reorderOffset - reorderOffset - 1 =
        r.statusPosition - 1 := by omega
      rw [harith]
    · have hq1 : ¬(r.projectId = p ∧ r.statusId = s ∧ r.archivedAt = none ∧
          r.id ≠ i ∧ a ≤ r.statusPosition ∧ (b ≥ 0 → r.statusPosition ≤ b)) := by
        rintro ⟨h1', h2', h3', h4', h5', h6'⟩
        exact hq ⟨h1', h2', h3', h4', h5', h6' hb⟩
      rw [if_neg hq1]
      rw [if_neg (show ¬(r.projectId = p ∧ r.statusId = s ∧
          r.archivedAt = none ∧ r.id ≠ i ∧
          a + reorderOffset ≤ r.statusPosition ∧
          (b ≥ 0 → r.statusPosition ≤ b + reorderOffset)) from by
        rintro ⟨h1', h2', h3', h4', h5', h6'⟩
        have h6b : r.statusPosition ≤ b + reorderOffset := h6' hb
        obtain ⟨w, hw, hwp, hws, hwa, hwi, hwv⟩ :=
          hcover (r.statusPosition - reorderOffset) (by omega) (by omega)
        have hwr : w ≠ r := by
          intro heq
          rw [heq] at hwv
          omega
        have hwid : w.id ≠ r.id := fun heq => hwr (idsNodup_inj hids hw hr heq)
        have hcondw : w.projectId = p ∧ w.statusId = s ∧ w.archivedAt = none ∧
            w.id ≠ i ∧ a ≤ w.statusPosition ∧ (b ≥ 0 → w.statusPosition ≤ b) :=
          ⟨hwp, hws, hwa, hwi, by omega, fun _ => by omega⟩
        have hmw := List.mem_map_of_mem (fun r =>
          if r.projectId = p ∧ r.statusId = s ∧ r.archivedAt = none ∧
              r.id ≠ i ∧ a ≤ r.statusPosition ∧ (b ≥ 0 → r.statusPosition ≤ b)
          then { r with statusPosition := r.statusPosition + reorderOffset,
                        updatedAt := now }
          else r) hw
        simp only [if_pos hcondw] at hmw
        have hmr := List.mem_map_of_mem (fun r =>
          if r.projectId = p ∧ r.statusId = s ∧ r.archivedAt = none ∧
              r.id ≠ i ∧ a ≤ r.statusPosition ∧ (b ≥ 0 → r.statusPosition ≤ b)
          then { r with statusPosition := r.statusPosition + reorderOffset,
                        updatedAt := now }
          else r) hr
        simp only [if_neg hq1] at hmr
        have heq := uniqueIndexOK_pos_inj hu1 hmw hmr hwp hws hwa h1' h2' h3'
          (by show w.statusPosition + reorderOffset = r.statusPosition; omega)
        have hideq : w.id = r.id := by
          have := congrArg IssueRow.id heq
          simpa using this
        exact hwid hideq)]
      rw [if_neg hq]

/-- The park statement, described as one checked map. -/
lemma parkIssueAtTempPosition_ok_eq {now : Int} {p i s : String}
    {st out : List IssueRow}
    (hok : parkIssueAtTempPosition now p i s st = .ok out) :
    uniqueIndexOK out ∧
    out = st.map (fun r =>
      if r.id = i ∧ r.projectId = p
      then { r with statusPosition := maxActivePosition st p s + 1,
                    updatedAt := now }
      else r) := by
  unfold parkIssueAtTempPosition at hok
  obtain ⟨hu, rfl⟩ := runUpdate_ok.mp hok
  exact ⟨hu, updateRows_eq_map_prop _ _ st⟩

/-- Effective target status of a move: empty means the current status. -/
def effTargetStatus (params : MoveIssueParams) (current : IssueRow) : String :=
  if params.targetStatusId = "" then current.statusId else params.targetStatusId

/-- The clamped position a successful move places the issue at. -/
def moveTargetPos (store : Store) (params : MoveIssueParams)
    (current : IssueRow) : Int :=
  clampTargetPosition store.issues params.projectId
    (effTargetStatus params current) params.targetPosition
    (decide (current.statusId = effTargetStatus params current))

/-- Anatomy of a successful move: either the no-op fast path committed the
unchanged store, or the park, the case-split shifts and the final placement
all succeeded in sequence. -/
lemma moveIssue_ok_elim {now : Int} {store store' : Store}
    {params : MoveIssueParams} {current : IssueRow}
    (hfind : getIssuePositionForUpdate store.issues params.projectId
      params.issueId = some current)
    (hok : moveIssue now store params = .ok store') :
    store'.statuses = store.statuses ∧ store'.counters = store.counters ∧
    ((current.statusId = effTargetStatus params current ∧
        moveTargetPos store params current = current.statusPosition ∧
        store' = store) ∨
      (¬(current.statusId = effTargetStatus params current ∧
          moveTargetPos store params current = current.statusPosition) ∧
        ∃ st1 st2,
          parkIssueAtTempPosition now params.projectId params.issueId
            current.statusId store.issues = Except.ok st1 ∧
          ((current.statusId = effTargetStatus params current ∧
              reorderWithinSameStatus now params.projectId params.issueId
                current.statusId current.statusPosition
                (moveTargetPos store params current) st1 = Except.ok st2) ∨
            (current.statusId ≠ effTargetStatus params current ∧
              ∃ stm,
                collapseSourceStatus now params.projectId params.issueId
                  current.statusId current.statusPosition st1 = Except.ok stm ∧
                openGapInTargetStatus now params.projectId
                  (effTargetStatus params current)
                  (moveTargetPos store params current) stm = Except.ok st2)) ∧
          runUpdate
            (fun r => decide (r.id = params.issueId ∧
              r.projectId = params.projectId))
            (fun r => { r with statusId := effTargetStatus params current,
                               statusPosition := moveTargetPos store params current,
                               updatedAt := now }) st2 = Except.ok store'.issues)) := by
  unfold moveIssue at hok
  rw [hfind] at hok
  simp only [] at hok
  by_cases hlock : lockStatuses store.statuses params.projectId current.statusId
      (if params.targetStatusId = "" then current.statusId
       else params.targetStatusId) = true
  · rw [if_pos hlock] at hok
    by_cases hnoop : current.statusId =
        (if params.targetStatusId = "" then current.statusId
         else params.targetStatusId) ∧
        clampTargetPosition store.issues params.projectId
          (if params.targetStatusId = "" then current.statusId
           else params.targetStatusId) params.targetPosition
          (decide (current.statusId =
            (if params.targetStatusId = "" then current.statusId
             else params.targetStatusId))) = current.statusPosition
    · rw [if_pos hnoop] at hok
      have hst : store = store' := by
        have := hok
        injection this
      subst hst
      exact ⟨rfl, rfl, Or.inl ⟨hnoop.1, hnoop.2, rfl⟩⟩
    · rw [if_neg hnoop] at hok
      cases hpark : parkIssueAtTempPosition now params.projectId params.issueId
          current.statusId store.issues with
      | error e => rw [hpark] at hok; exact absurd hok (by simp)
      | ok st1 =>
        rw [hpark] at hok
        simp only [] at hok
        by_cases hsame : current.statusId =
            (if params.targetStatusId = "" then current.statusId
             else params.targetStatusId)
        · rw [if_pos hsame] at hok
          cases hre : reorderWithinSameStatus now params.projectId params.issueId
              current.statusId current.statusPosition
              (clampTargetPosition store.issues params.projectId
                (if params.targetStatusId = "" then current.statusId
                 else params.targetStatusId) params.targetPosition
                (decide (current.statusId =
                  (if params.targetStatusId = "" then current.statusId
                   else params.targetStatusId)))) st1 with
          | error e => rw [hre] at hok; exact absurd hok (by simp)
          | ok st2 =>
            rw [hre] at hok
            simp only [] at hok
            cases hplace : runUpdate
                (fun r => decide (r.id = params.issueId ∧
                  r.projectId = params.projectId))
                (fun r => { r with
                  statusId := (if params.targetStatusId = "" then current.statusId
                    else params.targetStatusId),
                  statusPosition := clampTargetPosition store.issues
                    params.projectId
                    (if params.targetStatusId = "" then current.statusId
                     else params.targetStatusId) params.targetPosition
                    (decide (current.statusId =
                      (if params.targetStatusId = "" then current.statusId
                       else params.targetStatusId))),
                  updatedAt := now }) st2 with
            | error e => rw [hplace] at hok; exact absurd hok (by simp)
            | ok st3 =>
              rw [hplace] at hok
              simp only [] at hok
              have hst : ({ store with issues := st3 } : Store) = store' := by
                injection hok
              subst hst
              exact ⟨rfl, rfl, Or.inr ⟨hnoop, st1, st2, rfl,
                Or.inl ⟨hsame, hre⟩, hplace⟩⟩
        · rw [if_neg hsame] at hok
          cases hcol : collapseSourceStatus now params.projectId params.issueId
              current.statusId current.statusPosition st1 with
          | error e => rw [hcol] at hok; exact absurd hok (by simp)
          | ok stm =>
            rw [hcol] at hok
            simp only [] at hok
            cases hgap : openGapInTargetStatus now params.projectId
                (if params.targetStatusId = "" then current.statusId
                 else params.targetStatusId)
                (clampTargetPosition store.issues params.projectId
                  (if params.targetStatusId = "" then current.statusId
                   else params.targetStatusId) params.targetPosition
                  (decide (current.statusId =
                    (if params.targetStatusId = "" then current.statusId
                     else params.targetStatusId)))) stm with
            | error e => rw [hgap] at hok; exact absurd hok (by simp)
            | ok st2 =>
              rw [hgap] at hok
              simp only [] at hok
              cases hplace : runUpdate
                  (fun r => decide (r.id = params.issueId ∧
                    r.projectId = params.projectId))
                  (fun r => { r with
                    statusId := (if params.targetStatusId = "" then
                      current.statusId else params.targetStatusId),
                    statusPosition := clampTargetPosition store.issues
                      params.projectId
                      (if params.targetStatusId = "" then current.statusId
                       else params.targetStatusId) params.targetPosition
                      (decide (current.statusId =
                        (if params.targetStatusId = "" then current.statusId
                         else params.targetStatusId))),
                    updatedAt := now }) st2 with
              | error e => rw [hplace] at hok; exact absurd hok (by simp)
              | ok st3 =>
                rw [hplace] at hok
                simp only [] at hok
                have hst : ({ store with issues := st3 } : Store) = store' := by
                  injection hok
                subst hst
                exact ⟨rfl, rfl, Or.inr ⟨hnoop, st1, st2, rfl,
                  Or.inr ⟨hsame, stm, hcol, hgap⟩, hplace⟩⟩
  · rw [if_neg hlock] at hok
    exact absurd hok (by simp)

/-! ### Rebuilding contiguity from a membership description -/

lemma length_eq_of_mem_iff {l : List Int} {M : Int} (hM : 0 ≤ M)
    (hnd : l.Nodup) (hmem : ∀ q : Int, q ∈ l ↔ 0 ≤ q ∧ q < M) :
    (l.length : Int) = M := by
  have hfin : l.toFinset = Finset.Ico 0 M := by
    ext q
    rw [List.mem_toFinset, hmem q, Finset.mem_Ico]
  have hcard := List.toFinset_card_of_nodup hnd
  rw [hfin, Int.card_Ico] at hcard
  have := Int.toNat_of_nonneg (show (0 : Int) ≤ M - 0 by omega)
  omega

lemma statusContiguous_of_mem_iff {st' : List IssueRow} {p s : String}
    (M : Int) (hM : 0 ≤ M) (hu : uniqueIndexOK st')
    (hmem : ∀ q : Int, q ∈ activePositions st' p s ↔ 0 ≤ q ∧ q < M) :
    StatusContiguous st' p s := by
  have hnd := uniqueIndexOK_nodup hu p s
  have hlen : ((activePositions st' p s).length : Int) = M :=
    length_eq_of_mem_iff hM hnd hmem
  have hlen' : ((activeInStatus st' p s).length : Int) = M := by
    rw [← hlen]
    simp [activePositions]
  refine ⟨hnd, fun q => ?_⟩
  rw [hmem q, hlen']

lemma legalMaxPos_same {st : List IssueRow} {p t : String}
    (h : 0 < (activeInStatus st p t).length) :
    legalMaxPos st p t true = ((activeInStatus st p t).length : Int) - 1 := by
  unfold legalMaxPos
  have : (1 : Int) ≤ ((activeInStatus st p t).length : Int) := by exact_mod_cast h
  simp only [if_true]
  rw [if_neg (by omega)]

lemma legalMaxPos_cross {st : List IssueRow} {p t : String} :
    legalMaxPos st p t false = ((activeInStatus st p t).length : Int) := by
  simp only [legalMaxPos]
  rw [if_neg (show ¬(false = true) from by simp)]
  rw [if_neg (by omega)]

lemma idsNodup_ite_map {st : List IssueRow} (hids : idsNodup st)
    (cond : IssueRow → Prop) [DecidablePred cond] (f : IssueRow → IssueRow)
    (hf : ∀ r, (f r).id = r.id) :
    idsNodup (st.map (fun r => if cond r then f r else r)) := by
  refine idsNodup_map (fun r => ?_) hids
  by_cases h : cond r
  · rw [if_pos h]; exact hf r
  · rw [if_neg h]

/-- A parked state still covers, off the moving issue, every position of the
source cell other than the source position. -/
lemma cover_after_park {st : List IssueRow} {P I S : String} {cur : IssueRow}
    {tempPos now : Int}
    (hids : idsNodup st) (hcur : cur ∈ st) (hcid : cur.id = I)
    (hcont : StatusContiguous st P S) :
    ∀ v : Int, 0 ≤ v → v < ((activeInStatus st P S).length : Int) →
      v ≠ cur.statusPosition →
      ∃ r, r ∈ st.map (fun r => if r.id = I ∧ r.projectId = P
          then { r with statusPosition := tempPos, updatedAt := now } else r) ∧
        r.projectId = P ∧ r.statusId = S ∧ r.archivedAt = none ∧ r.id ≠ I ∧
        r.statusPosition = v := by
  intro v hv0 hvN hvsrc
  obtain ⟨w, hw, hwp, hws, hwa, hwv⟩ :=
    mem_activePositions.mp ((hcont.2 v).mpr ⟨hv0, hvN⟩)
  have hwid : w.id ≠ I := by
    intro h
    have hwc : w = cur := idsNodup_inj hids hw hcur (h.trans hcid.symm)
    rw [hwc] at hwv
    exact hvsrc hwv.symm
  refine ⟨w, ?_, hwp, hws, hwa, hwid, hwv⟩
  have hmem := List.mem_map_of_mem (fun r => if r.id = I ∧ r.projectId = P
    then { r with statusPosition := tempPos, updatedAt := now } else r) hw
  simp only [if_neg (show ¬(w.id = I ∧ w.projectId = P) from
    fun hcc => hwid hcc.1)] at hmem
  exact hmem

/-! ### Named per-row actions of the move statements -/

/-- Row action of the park statement. -/
def parkRow (I P : String) (tempPos now : Int) (r : IssueRow) : IssueRow :=
  if r.id = I ∧ r.projectId = P
  then { r with statusPosition := tempPos, updatedAt := now } else r

/-- Row action of a bounded shift by `delta` on `[a, b]` of the cell. -/
def shiftRowBy (P I S : String) (a b delta now : Int) (r : IssueRow) : IssueRow :=
  if r.projectId = P ∧ r.statusId = S ∧ r.archivedAt = none ∧ r.id ≠ I ∧
      a ≤ r.statusPosition ∧ r.statusPosition ≤ b
  then { r with statusPosition := r.statusPosition + delta, updatedAt := now }
  else r

/-- Row action of the source-collapse (unbounded down-shift from `a`). -/
def collapseRow (P I S : String) (a now : Int) (r : IssueRow) : IssueRow :=
  if r.projectId = P ∧ r.statusId = S ∧ r.archivedAt = none ∧ r.id ≠ I ∧
      a ≤ r.statusPosition
  then { r with statusPosition := r.statusPosition - 1, updatedAt := now }
  else r

/-- Row action of the gap-opening in the target cell. -/
def gapRow (P T : String) (tgt now : Int) (r : IssueRow) : IssueRow :=
  if r.projectId = P ∧ r.statusId = T ∧ r.archivedAt = none ∧
      tgt ≤ r.statusPosition
  then { r with statusPosition := r.statusPosition + 1, updatedAt := now }
  else r

/-- Row action of the final placement statement. -/
def placeRow (I P T : String) (tgt now : Int) (r : IssueRow) : IssueRow :=
  if r.id = I ∧ r.projectId = P
  then { r with statusId := T, statusPosition := tgt, updatedAt := now }
  else r

lemma parkRow_moving {I P : String} {tempPos now : Int} {r : IssueRow}
    (h1 : r.id = I) (h2 : r.projectId = P) :
    parkRow I P tempPos now r =
      { r with statusPosition := tempPos, updatedAt := now } := by
  unfold parkRow; rw [if_pos ⟨h1, h2⟩]

lemma parkRow_other {I P : String} {tempPos now : Int} {r : IssueRow}
    (h : r.id ≠ I) : parkRow I P tempPos now r = r := by
  unfold parkRow; rw [if_neg (fun hc => h hc.1)]

lemma shiftRowBy_in {P I S : String} {a b delta now : Int} {r : IssueRow}
    (h1 : r.projectId = P) (h2 : r.statusId = S) (h3 : r.archivedAt = none)
    (h4 : r.id ≠ I) (h5 : a ≤ r.statusPosition) (h6 : r.statusPosition ≤ b) :
    shiftRowBy P I S a b delta now r =
      { r with statusPosition := r.statusPosition + delta, updatedAt := now } := by
  unfold shiftRowBy; rw [if_pos ⟨h1, h2, h3, h4, h5, h6⟩]

lemma shiftRowBy_out {P I S : String} {a b delta now : Int} {r : IssueRow}
    (h : ¬(r.projectId = P ∧ r.statusId = S ∧ r.archivedAt = none ∧
      r.id ≠ I ∧ a ≤ r.statusPosition ∧ r.statusPosition ≤ b)) :
    shiftRowBy P I S a b delta now r = r := by
  unfold shiftRowBy; rw [if_neg h]

lemma collapseRow_in {P I S : String} {a now : Int} {r : IssueRow}
    (h1 : r.projectId = P) (h2 : r.statusId = S) (h3 : r.archivedAt = none)
    (h4 : r.id ≠ I) (h5 : a ≤ r.statusPosition) :
    collapseRow P I S a now r =
      { r with statusPosition := r.statusPosition - 1, updatedAt := now } := by
  unfold collapseRow; rw [if_pos ⟨h1, h2, h3, h4, h5⟩]

lemma collapseRow_out {P I S : String} {a now : Int} {r : IssueRow}
    (h : ¬(r.projectId = P ∧ r.statusId = S ∧ r.archivedAt = none ∧
      r.id ≠ I ∧ a ≤ r.statusPosition)) :
    collapseRow P I S a now r = r := by
  unfold collapseRow; rw [if_neg h]

lemma gapRow_in {P T : String} {tgt now : Int} {r : IssueRow}
    (h1 : r.projectId = P) (h2 : r.statusId = T) (h3 : r.archivedAt = none)
    (h4 : tgt ≤ r.statusPosition) :
    gapRow P T tgt now r =
      { r with statusPosition := r.statusPosition + 1, updatedAt := now } := by
  unfold gapRow; rw [if_pos ⟨h1, h2, h3, h4⟩]

lemma gapRow_out {P T : String} {tgt now : Int} {r : IssueRow}
    (h : ¬(r.projectId = P ∧ r.statusId = T ∧ r.archivedAt = none ∧
      tgt ≤ r.statusPosition)) :
    gapRow P T tgt now r = r := by
  unfold gapRow; rw [if_neg h]

lemma placeRow_moving {I P T : String} {tgt now : Int} {r : IssueRow}
    (h1 : r.id = I) (h2 : r.projectId = P) :
    placeRow I P T tgt now r =
      { r with statusId := T, statusPosition := tgt, updatedAt := now } := by
  unfold placeRow; rw [if_pos ⟨h1, h2⟩]

lemma placeRow_other {I P T : String} {tgt now : Int} {r : IssueRow}
    (h : r.id ≠ I) : placeRow I P T tgt now r = r := by
  unfold placeRow; rw [if_neg (fun hc => h hc.1)]

lemma parkRow_id {I P : String} {tempPos now : Int} (r : IssueRow) :
    (parkRow I P tempPos now r).id = r.id := by
  unfold parkRow; split <;> rfl

lemma shiftRowBy_id {P I S : String} {a b delta now : Int} (r : IssueRow) :
    (shiftRowBy P I S a b delta now r).id = r.id := by
  unfold shiftRowBy; split <;> rfl

lemma collapseRow_id {P I S : String} {a now : Int} (r : IssueRow) :
    (collapseRow P I S a now r).id = r.id := by
  unfold collapseRow; split <;> rfl

lemma gapRow_id {P T : String} {tgt now : Int} (r : IssueRow) :
    (gapRow P T tgt now r).id = r.id := by
  unfold gapRow; split <;> rfl

/-- After a successful same-status move pipeline (park, in-cell shift,
placement), the cell is contiguous again. -/
lemma contiguity_same_status
    {now : Int} {issues st1 st2 issues' : List IssueRow}
    {P I S : String} {cur : IssueRow} {tgt : Int}
    (hids : idsNodup issues)
    (hcur : cur ∈ issues) (hcid : cur.id = I) (hcp : cur.projectId = P)
    (hcs : cur.statusId = S) (hca : cur.archivedAt = none)
    (hcont : StatusContiguous issues P S)
    (htgt0 : 0 ≤ tgt)
    (htgtN : tgt < ((activeInStatus issues P S).length : Int))
    (hne : tgt ≠ cur.statusPosition)
    (hpark : parkIssueAtTempPosition now P I S issues = Except.ok st1)
    (hre : reorderWithinSameStatus now P I S cur.statusPosition tgt st1 =
      Except.ok st2)
    (hplace : runUpdate (fun r => decide (r.id = I ∧ r.projectId = P))
      (fun r => { r with statusId := S, statusPosition := tgt,
                         updatedAt := now }) st2 = Except.ok issues') :
    StatusContiguous issues' P S := by
  have hcurAct : cur ∈ activeInStatus issues P S :=
    mem_activeInStatus.mpr ⟨hcur, hcp, hcs, hca⟩
  have hN1 : 0 < (activeInStatus issues P S).length :=
    List.length_pos_of_mem hcurAct
  obtain ⟨hsrc0, hsrcN⟩ := (hcont.2 cur.statusPosition).mp
    (mem_activePositions.mpr ⟨cur, hcur, hcp, hcs, hca, rfl⟩)
  obtain ⟨hu1, hst1raw⟩ := parkIssueAtTempPosition_ok_eq hpark
  have hst1 : st1 = issues.map
      (parkRow I P (maxActivePosition issues P S + 1) now) := hst1raw
  have hids1 : idsNodup st1 := by
    rw [hst1]; exact idsNodup_map parkRow_id hids
  obtain ⟨huF, hfinraw⟩ := runUpdate_ok.mp hplace
  have hfin : issues' = st2.map (placeRow I P S tgt now) := by
    rw [hfinraw]
    exact updateRows_eq_map_prop _ _ st2
  have huIssues : uniqueIndexOK issues' := hfinraw.symm ▸ huF
  unfold reorderWithinSameStatus at hre
  rcases lt_trichotomy tgt cur.statusPosition with hdir | hdir | hdir
  · -- move up: shift [tgt, src-1] by +1
    rw [if_pos hdir] at hre
    have hcover : ∀ v : Int, tgt ≤ v → v ≤ cur.statusPosition - 1 →
        ∃ r, r ∈ st1 ∧ r.projectId = P ∧ r.statusId = S ∧
          r.archivedAt = none ∧ r.id ≠ I ∧ r.statusPosition = v := by
      intro v h1 h2
      rw [hst1]
      exact cover_after_park hids hcur hcid hcont v (by omega) (by omega)
        (by omega)
    have hst2 : st2 = st1.map
        (shiftRowBy P I S tgt (cur.statusPosition - 1) 1 now) :=
      shiftUpRange_ok_eq hre (by omega) hids1 hcover
    have hfin2 : issues' = issues.map
        ((placeRow I P S tgt now) ∘
          (shiftRowBy P I S tgt (cur.statusPosition - 1) 1 now) ∘
          (parkRow I P (maxActivePosition issues P S + 1) now)) := by
      rw [hfin, hst2, hst1, List.map_map, List.map_map]
      rfl
    refine statusContiguous_of_mem_iff
      ((activeInStatus issues P S).length : Int) (by omega) huIssues ?_
    intro q
    rw [hfin2, mem_activePositions_map]
    constructor
    · rintro ⟨r, hr, hgp, hgs, hga, hgq⟩
      by_cases hri : r.id = I
      · have hrc : r = cur := idsNodup_inj hids hr hcur (hri.trans hcid.symm)
        subst hrc
        rw [Function.comp_apply, Function.comp_apply,
          parkRow_moving hcid hcp,
          shiftRowBy_out (by exact fun hc => hc.2.2.2.1 hcid),
          placeRow_moving (by exact hcid) (by exact hcp)] at hgq
        have hq : tgt = q := hgq
        omega
      · rw [Function.comp_apply, Function.comp_apply,
          parkRow_other hri] at hgp hgs hga hgq
        by_cases hin : r.projectId = P ∧ r.statusId = S ∧
            r.archivedAt = none ∧ tgt ≤ r.statusPosition ∧
            r.statusPosition ≤ cur.statusPosition - 1
        · obtain ⟨hin1, hin2, hin3, hin4, hin5⟩ := hin
          rw [shiftRowBy_in hin1 hin2 hin3 hri hin4 hin5,
            placeRow_other (by exact hri)] at hgq
          have hq : r.statusPosition + 1 = q := hgq
          omega
        · have hnotshift : ¬(r.projectId = P ∧ r.statusId = S ∧
              r.archivedAt = none ∧ r.id ≠ I ∧ tgt ≤ r.statusPosition ∧
              r.statusPosition ≤ cur.statusPosition - 1) := by
            rintro ⟨h1, h2, h3, -, h5, h6⟩
            exact hin ⟨h1, h2, h3, h5, h6⟩
          rw [shiftRowBy_out hnotshift, placeRow_other hri] at hgp hgs hga hgq
          obtain ⟨hq0, hqN⟩ := (hcont.2 r.statusPosition).mp
            (mem_activePositions.mpr ⟨r, hr, hgp, hgs, hga, rfl⟩)
          omega
    · rintro ⟨hq0, hqN⟩
      by_cases hqt : q = tgt
      · refine ⟨cur, hcur, ?_, ?_, ?_, ?_⟩ <;>
          rw [Function.comp_apply, Function.comp_apply,
            parkRow_moving hcid hcp,
            shiftRowBy_out (by exact fun hc => hc.2.2.2.1 hcid),
            placeRow_moving (by exact hcid) (by exact hcp)] <;>
          first
            | exact hcp
            | exact hca
            | exact hqt.symm
      · by_cases hqhigh : tgt < q ∧ q ≤ cur.statusPosition
        · obtain ⟨w, hw, hwp, hws, hwa, hwv⟩ := mem_activePositions.mp
            ((hcont.2 (q - 1)).mpr ⟨by omega, by omega⟩)
          have hwid : w.id ≠ I := by
            intro h
            have hwc : w = cur := idsNodup_inj hids hw hcur (h.trans hcid.symm)
            rw [hwc] at hwv
            omega
          refine ⟨w, hw, ?_, ?_, ?_, ?_⟩ <;>
            rw [Function.comp_apply, Function.comp_apply, parkRow_other hwid,
              shiftRowBy_in hwp hws hwa hwid (by omega) (by omega),
              placeRow_other (by exact hwid)] <;>
            first
              | exact hwp
              | exact hws
              | exact hwa
              | (show w.statusPosition + 1 = q; omega)
        · obtain ⟨w, hw, hwp, hws, hwa, hwv⟩ := mem_activePositions.mp
            ((hcont.2 q).mpr ⟨hq0, hqN⟩)
          have hwid : w.id ≠ I := by
            intro h
            have hwc : w = cur := idsNodup_inj hids hw hcur (h.trans hcid.symm)
            rw [hwc] at hwv
            omega
          have hnotshift : ¬(w.projectId = P ∧ w.statusId = S ∧
              w.archivedAt = none ∧ w.id ≠ I ∧ tgt ≤ w.statusPosition ∧
              w.statusPosition ≤ cur.statusPosition - 1) := by
            rintro ⟨-, -, -, -, h5, h6⟩
            rw [hwv] at h5 h6
            exact hqhigh ⟨by omega, by omega⟩
          refine ⟨w, hw, ?_, ?_, ?_, ?_⟩ <;>
            rw [Function.comp_apply, Function.comp_apply, parkRow_other hwid,
              shiftRowBy_out hnotshift, placeRow_other hwid] <;>
            first
              | exact hwp
              | exact hws
              | exact hwa
              | exact hwv
  · exact absurd hdir hne
  · -- move down: shift [src+1, tgt] by -1
    rw [if_neg (by omega), if_pos hdir] at hre
    have hcover : ∀ v : Int, cur.statusPosition + 1 ≤ v → v ≤ tgt →
        ∃ r, r ∈ st1 ∧ r.projectId = P ∧ r.statusId = S ∧
          r.archivedAt = none ∧ r.id ≠ I ∧ r.statusPosition = v := by
      intro v h1 h2
      rw [hst1]
      exact cover_after_park hids hcur hcid hcont v (by omega) (by omega)
        (by omega)
    have hst2 : st2 = st1.map
        (shiftRowBy P I S (cur.statusPosition + 1) tgt (-1) now) :=
      shiftDownRange_bounded_ok_eq hre (by omega) (by omega) hids1 hcover
    have hfin2 : issues' = issues.map
        ((placeRow I P S tgt now) ∘
          (shiftRowBy P I S (cur.statusPosition + 1) tgt (-1) now) ∘
          (parkRow I P (maxActivePosition issues P S + 1) now)) := by
      rw [hfin, hst2, hst1, List.map_map, List.map_map]
      rfl
    refine statusContiguous_of_mem_iff
      ((activeInStatus issues P S).length : Int) (by omega) huIssues ?_
    intro q
    rw [hfin2, mem_activePositions_map]
    constructor
    · rintro ⟨r, hr, hgp, hgs, hga, hgq⟩
      by_cases hri : r.id = I
      · have hrc : r = cur := idsNodup_inj hids hr hcur (hri.trans hcid.symm)
        subst hrc
        rw [Function.comp_apply, Function.comp_apply,
          parkRow_moving hcid hcp,
          shiftRowBy_out (by exact fun hc => hc.2.2.2.1 hcid),
          placeRow_moving (by exact hcid) (by exact hcp)] at hgq
        have hq : tgt = q := hgq
        omega
      · rw [Function.comp_apply, Function.comp_apply,
          parkRow_other hri] at hgp hgs hga hgq
        by_cases hin : r.projectId = P ∧ r.statusId = S ∧
            r.archivedAt = none ∧ cur.statusPosition + 1 ≤ r.statusPosition ∧
            r.statusPosition ≤ tgt
        · obtain ⟨hin1, hin2, hin3, hin4, hin5⟩ := hin
          rw [shiftRowBy_in hin1 hin2 hin3 hri hin4 hin5,
            placeRow_other (by exact hri)] at hgq
          have hq : r.statusPosition + (-1) = q := hgq
          omega
        · have hnotshift : ¬(r.projectId = P ∧ r.statusId = S ∧
              r.archivedAt = none ∧ r.id ≠ I ∧
              cur.statusPosition + 1 ≤ r.statusPosition ∧
              r.statusPosition ≤ tgt) := by
            rintro ⟨h1, h2, h3, -, h5, h6⟩
            exact hin ⟨h1, h2, h3, h5, h6⟩
          rw [shiftRowBy_out hnotshift, placeRow_other hri] at hgp hgs hga hgq
          obtain ⟨hq0, hqN⟩ := (hcont.2 r.statusPosition).mp
            (mem_activePositions.mpr ⟨r, hr, hgp, hgs, hga, rfl⟩)
          omega
    · rintro ⟨hq0, hqN⟩
      by_cases hqt : q = tgt
      · refine ⟨cur, hcur, ?_, ?_, ?_, ?_⟩ <;>
          rw [Function.comp_apply, Function.comp_apply,
            parkRow_moving hcid hcp,
            shiftRowBy_out (by exact fun hc => hc.2.2.2.1 hcid),
            placeRow_moving (by exact hcid) (by exact hcp)] <;>
          first
            | exact hcp
            | exact hca
            | exact hqt.symm
      · by_cases hqmid : cur.statusPosition ≤ q ∧ q < tgt
        · obtain ⟨w, hw, hwp, hws, hwa, hwv⟩ := mem_activePositions.mp
            ((hcont.2 (q + 1)).mpr ⟨by omega, by omega⟩)
          have hwid : w.id ≠ I := by
            intro h
            have hwc : w = cur := idsNodup_inj hids hw hcur (h.trans hcid.symm)
            rw [hwc] at hwv
            omega
          refine ⟨w, hw, ?_, ?_, ?_, ?_⟩ <;>
            rw [Function.comp_apply, Function.comp_apply, parkRow_other hwid,
              shiftRowBy_in hwp hws hwa hwid (by omega) (by omega),
              placeRow_other (by exact hwid)] <;>
            first
              | exact hwp
              | exact hws
              | exact hwa
              | (show w.statusPosition + (-1) = q; omega)
        · obtain ⟨w, hw, hwp, hws, hwa, hwv⟩ := mem_activePositions.mp
            ((hcont.2 q).mpr ⟨hq0, hqN⟩)
          have hwid : w.id ≠ I := by
            intro h
            have hwc : w = cur := idsNodup_inj hids hw hcur (h.trans hcid.symm)
            rw [hwc] at hwv
            omega
          have hnotshift : ¬(w.projectId = P ∧ w.statusId = S ∧
              w.archivedAt = none ∧ w.id ≠ I ∧
              cur.statusPosition + 1 ≤ w.statusPosition ∧
              w.statusPosition ≤ tgt) := by
            rintro ⟨-, -, -, -, h5, h6⟩
            rw [hwv] at h5 h6
            exact hqmid ⟨by omega, by omega⟩
          refine ⟨w, hw, ?_, ?_, ?_, ?_⟩ <;>
            rw [Function.comp_apply, Function.comp_apply, parkRow_other hwid,
              shiftRowBy_out hnotshift, placeRow_other hwid] <;>
            first
              | exact hwp
              | exact hws
              | exact hwa
              | exact hwv

lemma activePositions_nodup_inj {st : List IssueRow} {p s : String}
    (hnd : (activePositions st p s).Nodup)
    {a b : IssueRow} (ha : a ∈ activeInStatus st p s)
    (hb : b ∈ activeInStatus st p s)
    (hpos : a.statusPosition = b.statusPosition) : a = b :=
  List.inj_on_of_nodup_map hnd ha hb hpos

/-- After a successful cross-status move pipeline (park, source collapse,
target gap, placement), both cells are contiguous again. -/
lemma contiguity_cross_status
    {now : Int} {issues st1 stm st2 issues' : List IssueRow}
    {P I S T : String} {cur : IssueRow} {tgt : Int}
    (hids : idsNodup issues)
    (hcur : cur ∈ issues) (hcid : cur.id = I) (hcp : cur.projectId = P)
    (hcs : cur.statusId = S) (hca : cur.archivedAt = none)
    (hST : S ≠ T)
    (hcontS : StatusContiguous issues P S)
    (hcontT : StatusContiguous issues P T)
    (htgt0 : 0 ≤ tgt)
    (htgtN : tgt ≤ ((activeInStatus issues P T).length : Int))
    (hpark : parkIssueAtTempPosition now P I S issues = Except.ok st1)
    (hcol : collapseSourceStatus now P I S cur.statusPosition st1 =
      Except.ok stm)
    (hgap : openGapInTargetStatus now P T tgt stm = Except.ok st2)
    (hplace : runUpdate (fun r => decide (r.id = I ∧ r.projectId = P))
      (fun r => { r with statusId := T, statusPosition := tgt,
                         updatedAt := now }) st2 = Except.ok issues') :
    StatusContiguous issues' P S ∧ StatusContiguous issues' P T := by
  have hcurAct : cur ∈ activeInStatus issues P S :=
    mem_activeInStatus.mpr ⟨hcur, hcp, hcs, hca⟩
  have hNS1 : 0 < (activeInStatus issues P S).length :=
    List.length_pos_of_mem hcurAct
  obtain ⟨hsrc0, hsrcN⟩ := (hcontS.2 cur.statusPosition).mp
    (mem_activePositions.mpr ⟨cur, hcur, hcp, hcs, hca, rfl⟩)
  obtain ⟨hu1, hst1raw⟩ := parkIssueAtTempPosition_ok_eq hpark
  have hst1 : st1 = issues.map
      (parkRow I P (maxActivePosition issues P S + 1) now) := hst1raw
  unfold collapseSourceStatus at hcol
  have hstm : stm = st1.map
      (collapseRow P I S (cur.statusPosition + 1) now) :=
    shiftDownRange_unbounded_ok_eq hcol
  have hst2 : st2 = stm.map (gapRow P T tgt now) :=
    openGapInTargetStatus_ok_eq hgap
  obtain ⟨huF, hfinraw⟩ := runUpdate_ok.mp hplace
  have hfin : issues' = st2.map (placeRow I P T tgt now) := by
    rw [hfinraw]
    exact updateRows_eq_map_prop _ _ st2
  have huIssues : uniqueIndexOK issues' := hfinraw.symm ▸ huF
  have hfin2 : issues' = issues.map
      ((placeRow I P T tgt now) ∘ (gapRow P T tgt now) ∘
        (collapseRow P I S (cur.statusPosition + 1) now) ∘
        (parkRow I P (maxActivePosition issues P S + 1) now)) := by
    rw [hfin, hst2, hstm, hst1, List.map_map, List.map_map, List.map_map]
    rfl
  constructor
  · -- the source cell is {0 .. N_S - 2}
    refine statusContiguous_of_mem_iff
      (((activeInStatus issues P S).length : Int) - 1) (by omega) huIssues ?_
    intro q
    rw [hfin2, mem_activePositions_map]
    constructor
    · rintro ⟨r, hr, hgp, hgs, hga, hgq⟩
      by_cases hri : r.id = I
      · have hrc : r = cur := idsNodup_inj hids hr hcur (hri.trans hcid.symm)
        subst hrc
        rw [Function.comp_apply, Function.comp_apply, Function.comp_apply,
          parkRow_moving hcid hcp,
          collapseRow_out (by exact fun hc => hc.2.2.2.1 hcid),
          gapRow_out (by exact fun hc => hST (hcs.symm.trans hc.2.1)),
          placeRow_moving (by exact hcid) (by exact hcp)] at hgs
        exact absurd (show T = S from hgs).symm hST
      · rw [Function.comp_apply, Function.comp_apply, Function.comp_apply,
          parkRow_other hri] at hgp hgs hga hgq
        by_cases hin : r.projectId = P ∧ r.statusId = S ∧
            r.archivedAt = none ∧ cur.statusPosition + 1 ≤ r.statusPosition
        · obtain ⟨hin1, hin2, hin3, hin4⟩ := hin
          rw [collapseRow_in hin1 hin2 hin3 hri hin4,
            gapRow_out (by exact fun hc => hST (hin2.symm.trans hc.2.1)),
            placeRow_other (by exact hri)] at hgq
          have hq : r.statusPosition - 1 = q := hgq
          obtain ⟨hp0, hpN⟩ := (hcontS.2 r.statusPosition).mp
            (mem_activePositions.mpr ⟨r, hr, hin1, hin2, hin3, rfl⟩)
          omega
        · have hnotcol : ¬(r.projectId = P ∧ r.statusId = S ∧
              r.archivedAt = none ∧ r.id ≠ I ∧
              cur.statusPosition + 1 ≤ r.statusPosition) := by
            rintro ⟨h1, h2, h3, -, h5⟩
            exact hin ⟨h1, h2, h3, h5⟩
          rw [collapseRow_out hnotcol] at hgp hgs hga hgq
          by_cases hgapc : r.projectId = P ∧ r.statusId = T ∧
              r.archivedAt = none ∧ tgt ≤ r.statusPosition
          · obtain ⟨hg1, hg2, hg3, hg4⟩ := hgapc
            rw [gapRow_in hg1 hg2 hg3 hg4,
              placeRow_other (by exact hri)] at hgs
            exact absurd (hg2.symm.trans hgs).symm hST
          · rw [gapRow_out hgapc, placeRow_other hri] at hgp hgs hga hgq
            obtain ⟨hp0, hpN⟩ := (hcontS.2 r.statusPosition).mp
              (mem_activePositions.mpr ⟨r, hr, hgp, hgs, hga, rfl⟩)
            have hrne : r ≠ cur := fun h => hri (by rw [h]; exact hcid)
            have hposne : r.statusPosition ≠ cur.statusPosition := fun h =>
              hrne (activePositions_nodup_inj hcontS.1
                (mem_activeInStatus.mpr ⟨hr, hgp, hgs, hga⟩) hcurAct h)
            have hle : ¬(cur.statusPosition + 1 ≤ r.statusPosition) :=
              fun h => hnotcol ⟨hgp, hgs, hga, hri, h⟩
            omega
    · rintro ⟨hq0, hqN⟩
      by_cases hql : q < cur.statusPosition
      · obtain ⟨w, hw, hwp, hws, hwa, hwv⟩ := mem_activePositions.mp
          ((hcontS.2 q).mpr ⟨hq0, by omega⟩)
        have hwid : w.id ≠ I := by
          intro h
          have hwc : w = cur := idsNodup_inj hids hw hcur (h.trans hcid.symm)
          rw [hwc] at hwv
          omega
        have hnotcol : ¬(w.projectId = P ∧ w.statusId = S ∧
            w.archivedAt = none ∧ w.id ≠ I ∧
            cur.statusPosition + 1 ≤ w.statusPosition) := by
          rintro ⟨-, -, -, -, h5⟩
          rw [hwv] at h5
          omega
        refine ⟨w, hw, ?_, ?_, ?_, ?_⟩ <;>
          rw [Function.comp_apply, Function.comp_apply, Function.comp_apply,
            parkRow_other hwid, collapseRow_out hnotcol,
            gapRow_out (by exact fun hc => hST (hws.symm.trans hc.2.1)),
            placeRow_other hwid] <;>
          first
            | exact hwp
            | exact hws
            | exact hwa
            | exact hwv
      · obtain ⟨w, hw, hwp, hws, hwa, hwv⟩ := mem_activePositions.mp
          ((hcontS.2 (q + 1)).mpr ⟨by omega, by omega⟩)
        have hwid : w.id ≠ I := by
          intro h
          have hwc : w = cur := idsNodup_inj hids hw hcur (h.trans hcid.symm)
          rw [hwc] at hwv
          omega
        refine ⟨w, hw, ?_, ?_, ?_, ?_⟩ <;>
          rw [Function.comp_apply, Function.comp_apply, Function.comp_apply,
            parkRow_other hwid,
            collapseRow_in hwp hws hwa hwid (by omega),
            gapRow_out (by exact fun hc => hST (hws.symm.trans hc.2.1)),
            placeRow_other (by exact hwid)] <;>
          first
            | exact hwp
            | exact hws
            | exact hwa
            | (show w.statusPosition - 1 = q; omega)
  · -- the target cell is {0 .. N_T}
    refine statusContiguous_of_mem_iff
      (((activeInStatus issues P T).length : Int) + 1) (by omega) huIssues ?_
    intro q
    rw [hfin2, mem_activePositions_map]
    constructor
    · rintro ⟨r, hr, hgp, hgs, hga, hgq⟩
      by_cases hri : r.id = I
      · have hrc : r = cur := idsNodup_inj hids hr hcur (hri.trans hcid.symm)
        subst hrc
        rw [Function.comp_apply, Function.comp_apply, Function.comp_apply,
          parkRow_moving hcid hcp,
          collapseRow_out (by exact fun hc => hc.2.2.2.1 hcid),
          gapRow_out (by exact fun hc => hST (hcs.symm.trans hc.2.1)),
          placeRow_moving (by exact hcid) (by exact hcp)] at hgq
        have hq : tgt = q := hgq
        omega
      · rw [Function.comp_apply, Function.comp_apply, Function.comp_apply,
          parkRow_other hri] at hgp hgs hga hgq
        by_cases hin : r.projectId = P ∧ r.statusId = S ∧
            r.archivedAt = none ∧ cur.statusPosition + 1 ≤ r.statusPosition
        · obtain ⟨hin1, hin2, hin3, hin4⟩ := hin
          rw [collapseRow_in hin1 hin2 hin3 hri hin4,
            gapRow_out (by exact fun hc => hST (hin2.symm.trans hc.2.1)),
            placeRow_other (by exact hri)] at hgs
          exact absurd (hin2.symm.trans hgs) hST
        · have hnotcol : ¬(r.projectId = P ∧ r.statusId = S ∧
              r.archivedAt = none ∧ r.id ≠ I ∧
              cur.statusPosition + 1 ≤ r.statusPosition) := by
            rintro ⟨h1, h2, h3, -, h5⟩
            exact hin ⟨h1, h2, h3, h5⟩
          rw [collapseRow_out hnotcol] at hgp hgs hga hgq
          by_cases hgapc : r.projectId = P ∧ r.statusId = T ∧
              r.archivedAt = none ∧ tgt ≤ r.statusPosition
          · obtain ⟨hg1, hg2, hg3, hg4⟩ := hgapc
            rw [gapRow_in hg1 hg2 hg3 hg4,
              placeRow_other (by exact hri)] at hgq
            have hq : r.statusPosition + 1 = q := hgq
            obtain ⟨hp0, hpN⟩ := (hcontT.2 r.statusPosition).mp
              (mem_activePositions.mpr ⟨r, hr, hg1, hg2, hg3, rfl⟩)
            omega
          · rw [gapRow_out hgapc, placeRow_other hri] at hgp hgs hga hgq
            obtain ⟨hp0, hpN⟩ := (hcontT.2 r.statusPosition).mp
              (mem_activePositions.mpr ⟨r, hr, hgp, hgs, hga, rfl⟩)
            have hlt : ¬(tgt ≤ r.statusPosition) :=
              fun h => hgapc ⟨hgp, hgs, hga, h⟩
            omega
    · rintro ⟨hq0, hqN⟩
      by_cases hqt : q = tgt
      · refine ⟨cur, hcur, ?_, ?_, ?_, ?_⟩ <;>
          rw [Function.comp_apply, Function.comp_apply, Function.comp_apply,
            parkRow_moving hcid hcp,
            collapseRow_out (by exact fun hc => hc.2.2.2.1 hcid),
            gapRow_out (by exact fun hc => hST (hcs.symm.trans hc.2.1)),
            placeRow_moving (by exact hcid) (by exact hcp)] <;>
          first
            | exact hcp
            | exact hca
            | exact hqt.symm
      · by_cases hql : q < tgt
        · obtain ⟨w, hw, hwp, hws, hwa, hwv⟩ := mem_activePositions.mp
            ((hcontT.2 q).mpr ⟨hq0, by omega⟩)
          have hwid : w.id ≠ I := by
            intro h
            have hwc : w = cur := idsNodup_inj hids hw hcur (h.trans hcid.symm)
            rw [hwc] at hws
            exact hST (hcs.symm.trans hws)
          have hnotgap : ¬(w.projectId = P ∧ w.statusId = T ∧
              w.archivedAt = none ∧ tgt ≤ w.statusPosition) := by
            rintro ⟨-, -, -, h4⟩
            rw [hwv] at h4
            omega
          refine ⟨w, hw, ?_, ?_, ?_, ?_⟩ <;>
            rw [Function.comp_apply, Function.comp_apply, Function.comp_apply,
              parkRow_other hwid,
              collapseRow_out (by exact fun hc => hST (hc.2.1.symm.trans hws)),
              gapRow_out hnotgap, placeRow_other hwid] <;>
            first
              | exact hwp
              | exact hws
              | exact hwa
              | exact hwv
        · obtain ⟨w, hw, hwp, hws, hwa, hwv⟩ := mem_activePositions.mp
            ((hcontT.2 (q - 1)).mpr ⟨by omega, by omega⟩)
          have hwid : w.id ≠ I := by
            intro h
            have hwc : w = cur := idsNodup_inj hids hw hcur (h.trans hcid.symm)
            rw [hwc] at hws
            exact hST (hcs.symm.trans hws)
          refine ⟨w, hw, ?_, ?_, ?_, ?_⟩ <;>
            rw [Function.comp_apply, Function.comp_apply, Function.comp_apply,
              parkRow_other hwid,
              collapseRow_out (by exact fun hc => hST (hc.2.1.symm.trans hws)),
              gapRow_in hwp hws hwa (by omega),
              placeRow_other (by exact hwid)] <;>
            first
              | exact hwp
              | exact hws
              | exact hwa
              | (show w.statusPosition + 1 = q; omega)

/-- Assembled preservation result for a successful move, used to settle the
invariant claim: with distinct row ids and I1/I2 holding in the source and
target cells beforehand, both cells satisfy I1/I2 again afterwards. -/
lemma moveIssue_preserves_contiguity_core
    {now : Int} {store store' : Store} {params : MoveIssueParams}
    {current : IssueRow}
    (hids : idsNodup store.issues)
    (hfind : getIssuePositionForUpdate store.issues params.projectId
      params.issueId = some current)
    (hS : StatusContiguous store.issues params.projectId current.statusId)
    (hT : StatusContiguous store.issues params.projectId
      (effTargetStatus params current))
    (hok : moveIssue now store params = .ok store') :
    StatusContiguous store'.issues params.projectId current.statusId ∧
    StatusContiguous store'.issues params.projectId
      (effTargetStatus params current) := by
  obtain ⟨hcur, hcid, hcp, hca⟩ := getIssuePositionForUpdate_some hfind
  obtain ⟨hsts, hctr, hcase⟩ := moveIssue_ok_elim hfind hok
  rcases hcase with ⟨-, -, rfl⟩ | ⟨hnoop, st1, st2, hpark, hshift, hplace⟩
  · exact ⟨hS, hT⟩
  · have hcurAct : current ∈ activeInStatus store.issues params.projectId
        current.statusId := mem_activeInStatus.mpr ⟨hcur, hcp, rfl, hca⟩
    have hN1 : 0 < (activeInStatus store.issues params.projectId
        current.statusId).length := List.length_pos_of_mem hcurAct
    rcases hshift with ⟨hsame, hre⟩ | ⟨hdiff, stm, hcol, hgap⟩
    · -- same-status move
      have hbounds := @clampTargetPosition_bounds store.issues params.projectId
        (effTargetStatus params current) params.targetPosition
        (decide (current.statusId = effTargetStatus params current))
      rw [decide_eq_true hsame, ← hsame, legalMaxPos_same hN1] at hbounds
      have hmt : moveTargetPos store params current =
          clampTargetPosition store.issues params.projectId current.statusId
            params.targetPosition true := by
        unfold moveTargetPos
        rw [← hsame, decide_eq_true (rfl : current.statusId = current.statusId)]
      have hne : moveTargetPos store params current ≠ current.statusPosition :=
        fun h => hnoop ⟨hsame, h⟩
      rw [← hsame] at hplace
      have hres := contiguity_same_status hids hcur hcid hcp rfl hca hS
        (by rw [hmt]; exact hbounds.1)
        (by rw [hmt]; omega)
        hne hpark hre hplace
      exact ⟨hres, hsame ▸ hres⟩
    · -- cross-status move
      have hbounds := @clampTargetPosition_bounds store.issues params.projectId
        (effTargetStatus params current) params.targetPosition
        (decide (current.statusId = effTargetStatus params current))
      rw [decide_eq_false hdiff, legalMaxPos_cross] at hbounds
      have hmt : moveTargetPos store params current =
          clampTargetPosition store.issues params.projectId
            (effTargetStatus params current) params.targetPosition false := by
        unfold moveTargetPos
        rw [decide_eq_false hdiff]
      exact contiguity_cross_status hids hcur hcid hcp rfl hca hdiff hS hT
        (by rw [hmt]; exact hbounds.1) (by rw [hmt]; exact hbounds.2)
        hpark hcol hgap hplace

/-! ### Claim theorems -/

/-- Fixture row for concrete checks. -/
def sampleRow (i p s : String) (pos : Int) : IssueRow :=
  { id := i, projectId := p, number := 1, issueTypeId := "ty", statusId := s,
    parentIssueId := none, title := "t", description := "",
    priority := "medium", assigneeId := none, reporterId := "r",
    dueDate := none, statusPosition := pos, createdAt := 0, updatedAt := 0,
    archivedAt := none }

/-- Fixture: a project with one status `Todo` holding `A@0, B@1`. -/
def moveFixtureStore : Store :=
  { issues := [sampleRow "A" "P" "Todo" 0, sampleRow "B" "P" "Todo" 1],
    statuses := [{ id := "Todo", projectId := "P" }],
    counters := [] }

/-- Fixture: move `B` to the head of `Todo`. -/
def moveFixtureParams : MoveIssueParams :=
  { projectId := "P", issueId := "B", targetStatusId := "Todo",
    targetPosition := 0 }

/-- Fixture: the committed store of the fixture move. -/
def moveFixtureResult : Store :=
  { issues := [{ sampleRow "A" "P" "Todo" 1 with updatedAt := 5 },
               { sampleRow "B" "P" "Todo" 0 with updatedAt := 5 }],
    statuses := [{ id := "Todo", projectId := "P" }],
    counters := [] }

/-- **C1.** For every state whose rows have distinct ids and which satisfies
uniqueness and contiguity (I1, I2) in the source and target statuses of the
move, every successful `MoveIssue` call commits a state satisfying both
again: in each `(project_id, status_id)` cell touched by the move, the
active positions are pairwise distinct and form exactly `{0 .. N-1}` where
`N` is the count of active issues in that cell. -/
theorem MoveIssue_preserves_I1_I2
    (now : Int) (store store' : Store) (params : MoveIssueParams)
    (current : IssueRow)
    (hids : idsNodup store.issues)
    (hfind : getIssuePositionForUpdate store.issues params.projectId
      params.issueId = some current)
    (hS : StatusContiguous store.issues params.projectId current.statusId)
    (hT : StatusContiguous store.issues params.projectId
      (effTargetStatus params current))
    (hok : MoveIssue now store params = Except.ok store') :
    StatusContiguous store'.issues params.projectId current.statusId ∧
    StatusContiguous store'.issues params.projectId
      (effTargetStatus params current) := by
  unfold MoveIssue at hok
  cases hv : params.validate with
  | some e => rw [hv] at hok; exact absurd hok (by simp)
  | none =>
    rw [hv] at hok
    simp only [] at hok
    exact moveIssue_preserves_contiguity_core hids hfind hS hT hok

/-- Witness: the invariant theorem applied to the two-issue fixture. -/
theorem MoveIssue_preserves_I1_I2_witness :
    idsNodup moveFixtureStore.issues ∧
    getIssuePositionForUpdate moveFixtureStore.issues "P" "B" =
      some (sampleRow "B" "P" "Todo" 1) ∧
    StatusContiguous moveFixtureStore.issues "P" "Todo" ∧
    MoveIssue 5 moveFixtureStore moveFixtureParams =
      Except.ok moveFixtureResult ∧
    (StatusContiguous moveFixtureResult.issues "P" "Todo" ∧
     StatusContiguous moveFixtureResult.issues "P"
       (effTargetStatus moveFixtureParams (sampleRow "B" "P" "Todo" 1))) :=
  ⟨by decide, by decide, by decide, by decide,
    MoveIssue_preserves_I1_I2 5 moveFixtureStore moveFixtureResult
      moveFixtureParams (sampleRow "B" "P" "Todo" 1)
      (by decide) (by decide) (by decide) (by decide) (by decide)⟩

/-! ### Error classification: only the unique index aborts a started move -/

lemma runUpdate_error {cond : IssueRow → Bool} {f : IssueRow → IssueRow}
    {st : List IssueRow} {e : EngineError}
    (h : runUpdate cond f st = .error e) : e = .uniqueViolation := by
  unfold runUpdate at h
  by_cases hu : uniqueIndexOK (updateRows cond f st) <;> simp [hu] at h
  exact h.symm

lemma parkIssueAtTempPosition_error {now : Int} {p i s : String}
    {st : List IssueRow} {e : EngineError}
    (h : parkIssueAtTempPosition now p i s st = .error e) :
    e = .uniqueViolation := runUpdate_error h

lemma shiftUpRange_error {now : Int} {p i s : String} {a b : Int}
    {st : List IssueRow} {e : EngineError}
    (h : shiftUpRange now p i s a b st = .error e) : e = .uniqueViolation := by
  unfold shiftUpRange at h
  by_cases hab : a > b
  · rw [if_pos hab] at h; exact absurd h (by simp)
  · rw [if_neg hab] at h
    cases h1 : runUpdate
        (fun r => decide (r.projectId = p ∧ r.statusId = s ∧
          r.archivedAt = none ∧ r.id ≠ i ∧
          a ≤ r.statusPosition ∧ r.statusPosition ≤ b))
        (fun r => { r with statusPosition := r.statusPosition + reorderOffset,
                           updatedAt := now }) st with
    | error e1 =>
      rw [h1] at h
      have he : e1 = e := by injection h
      exact he ▸ runUpdate_error h1
    | ok st1 =>
      rw [h1] at h
      exact runUpdate_error h

lemma shiftDownRange_error {now : Int} {p i s : String} {a b : Int}
    {st : List IssueRow} {e : EngineError}
    (h : shiftDownRange now p i s a b st = .error e) : e = .uniqueViolation := by
  unfold shiftDownRange at h
  by_cases hab : b ≥ 0 ∧ a > b
  · rw [if_pos hab] at h; exact absurd h (by simp)
  · rw [if_neg hab] at h
    cases h1 : runUpdate
        (fun r => decide (r.projectId = p ∧ r.statusId = s ∧
          r.archivedAt = none ∧ r.id ≠ i ∧ a ≤ r.statusPosition ∧
          (b ≥ 0 → r.statusPosition ≤ b)))
        (fun r => { r with statusPosition := r.statusPosition + reorderOffset,
                           updatedAt := now }) st with
    | error e1 =>
      rw [h1] at h
      have he : e1 = e := by injection h
      exact he ▸ runUpdate_error h1
    | ok st1 =>
      rw [h1] at h
      exact runUpdate_error h

lemma openGapInTargetStatus_error {now : Int} {p t : String} {tgt : Int}
    {st : List IssueRow} {e : EngineError}
    (h : openGapInTargetStatus now p t tgt st = .error e) :
    e = .uniqueViolation := by
  unfold openGapInTargetStatus at h
  cases h1 : runUpdate
      (fun r => decide (r.projectId = p ∧ r.statusId = t ∧
        r.archivedAt = none ∧ tgt ≤ r.statusPosition))
      (fun r => { r with statusPosition := r.statusPosition + reorderOffset,
                         updatedAt := now }) st with
  | error e1 =>
    rw [h1] at h
    have he : e1 = e := by injection h
    exact he ▸ runUpdate_error h1
  | ok st1 =>
    rw [h1] at h
    exact runUpdate_error h

lemma reorderWithinSameStatus_error {now : Int} {p i s : String}
    {src tgt : Int} {st : List IssueRow} {e : EngineError}
    (h : reorderWithinSameStatus now p i s src tgt st = .error e) :
    e = .uniqueViolation := by
  unfold reorderWithinSameStatus at h
  by_cases h1 : tgt < src
  · rw [if_pos h1] at h; exact shiftUpRange_error h
  · rw [if_neg h1] at h
    by_cases h2 : tgt > src
    · rw [if_pos h2] at h; exact shiftDownRange_error h
    · rw [if_neg h2] at h; exact absurd h (by simp)

lemma collapseSourceStatus_error {now : Int} {p i s : String} {src : Int}
    {st : List IssueRow} {e : EngineError}
    (h : collapseSourceStatus now p i s src st = .error e) :
    e = .uniqueViolation := shiftDownRange_error h

/-- A move that found its issue row never reports `IssueNotFound`. -/
lemma moveIssue_found_ne_issueNotFound
    {now : Int} {store : Store} {params : MoveIssueParams} {current : IssueRow}
    (hfind : getIssuePositionForUpdate store.issues params.projectId
      params.issueId = some current) :
    moveIssue now store params ≠ Except.error EngineError.issueNotFound := by
  intro hok
  unfold moveIssue at hok
  rw [hfind] at hok
  simp only [] at hok
  by_cases hlock : lockStatuses store.statuses params.projectId
      current.statusId (if params.targetStatusId = "" then current.statusId
       else params.targetStatusId) = true
  · rw [if_pos hlock] at hok
    by_cases hnoop : current.statusId =
        (if params.targetStatusId = "" then current.statusId
         else params.targetStatusId) ∧
        clampTargetPosition store.issues params.projectId
          (if params.targetStatusId = "" then current.statusId
           else params.targetStatusId) params.targetPosition
          (decide (current.statusId =
            (if params.targetStatusId = "" then current.statusId
             else params.targetStatusId))) = current.statusPosition
    · rw [if_pos hnoop] at hok
      exact absurd hok (by simp)
    · rw [if_neg hnoop] at hok
      cases hpark : parkIssueAtTempPosition now params.projectId params.issueId
          current.statusId store.issues with
      | error e =>
        rw [hpark] at hok
        have he : e = .issueNotFound := by injection hok
        rw [parkIssueAtTempPosition_error hpark] at he
        exact absurd he (by simp)
      | ok st1 =>
        rw [hpark] at hok
        simp only [] at hok
        by_cases hsame : current.statusId =
            (if params.targetStatusId = "" then current.statusId
             else params.targetStatusId)
        · rw [if_pos hsame] at hok
          cases hre : reorderWithinSameStatus now params.projectId
              params.issueId current.statusId current.statusPosition
              (clampTargetPosition store.issues params.projectId
                (if params.targetStatusId = "" then current.statusId
                 else params.targetStatusId) params.targetPosition
                (decide (current.statusId =
                  (if params.targetStatusId = "" then current.statusId
                   else params.targetStatusId)))) st1 with
          | error e =>
            rw [hre] at hok
            have he : e = .issueNotFound := by injection hok
            rw [reorderWithinSameStatus_error hre] at he
            exact absurd he (by simp)
          | ok st2 =>
            rw [hre] at hok
            simp only [] at hok
            cases hplace : runUpdate
                (fun r => decide (r.id = params.issueId ∧
                  r.projectId = params.projectId))
                (fun r => { r with
                  statusId := (if params.targetStatusId = "" then
                    current.statusId else params.targetStatusId),
                  statusPosition := clampTargetPosition store.issues
                    params.projectId
                    (if params.targetStatusId = "" then current.statusId
                     else params.targetStatusId) params.targetPosition
                    (decide (current.statusId =
                      (if params.targetStatusId = "" then current.statusId
                       else params.targetStatusId))),
                  updatedAt := now }) st2 with
            | error e =>
              rw [hplace] at hok
              have he : e = .issueNotFound := by injection hok
              rw [runUpdate_error hplace] at he
              exact absurd he (by simp)
            | ok st3 =>
              rw [hplace] at hok
              exact absurd hok (by simp)
        · rw [if_neg hsame] at hok
          cases hcol : collapseSourceStatus now params.projectId params.issueId
              current.statusId current.statusPosition st1 with
          | error e =>
            rw [hcol] at hok
            have he : e = .issueNotFound := by injection hok
            rw [collapseSourceStatus_error hcol] at he
            exact absurd he (by simp)
          | ok stm =>
            rw [hcol] at hok
            simp only [] at hok
            cases hgap : openGapInTargetStatus now params.projectId
                (if params.targetStatusId = "" then current.statusId
                 else params.targetStatusId)
                (clampTargetPosition store.issues params.projectId
                  (if params.targetStatusId = "" then current.statusId
                   else params.targetStatusId) params.targetPosition
                  (decide (current.statusId =
                    (if params.targetStatusId = "" then current.statusId
                     else params.targetStatusId)))) stm with
            | error e =>
              rw [hgap] at hok
              have he : e = .issueNotFound := by injection hok
              rw [openGapInTargetStatus_error hgap] at he
              exact absurd he (by simp)
            | ok st2 =>
              rw [hgap] at hok
              simp only [] at hok
              cases hplace : runUpdate
                  (fun r => decide (r.id = params.issueId ∧
                    r.projectId = params.projectId))
                  (fun r => { r with
                    statusId := (if params.targetStatusId = "" then
                      current.statusId else params.targetStatusId),
                    statusPosition := clampTargetPosition store.issues
                      params.projectId
                      (if params.targetStatusId = "" then current.statusId
                       else params.targetStatusId) params.targetPosition
                      (decide (current.statusId =
                        (if params.targetStatusId = "" then current.statusId
                         else params.targetStatusId))),
                    updatedAt := now }) st2 with
              | error e =>
                rw [hplace] at hok
                have he : e = .issueNotFound := by injection hok
                rw [runUpdate_error hplace] at he
                exact absurd he (by simp)
              | ok st3 =>
                rw [hplace] at hok
                exact absurd hok (by simp)
  · rw [if_neg hlock] at hok
    have he : EngineError.statusInvalid = EngineError.issueNotFound := by
      injection hok
    exact absurd he (by simp)

/-- **C8.** `moveIssue` reports `IssueNotFound` exactly when no active issue
with the requested id exists in the requested project (missing, archived, or
in another project); the transaction is rolled back before any mutation, so
an error leaves the caller's store untouched (errors carry no state in this
model). -/
theorem moveIssue_issueNotFound_iff
    (now : Int) (store : Store) (params : MoveIssueParams) :
    moveIssue now store params = Except.error EngineError.issueNotFound ↔
      ¬ ∃ r, r ∈ store.issues ∧ r.id = params.issueId ∧
        r.projectId = params.projectId ∧ r.archivedAt = none := by
  constructor
  · intro h
    cases hfind : getIssuePositionForUpdate store.issues params.projectId
        params.issueId with
    | some cur => exact absurd h (moveIssue_found_ne_issueNotFound hfind)
    | none =>
      rw [getIssuePositionForUpdate_none] at hfind
      rintro ⟨r, hr, h1, h2, h3⟩
      exact hfind r hr ⟨h1, h2, h3⟩
  · intro h
    cases hfind : getIssuePositionForUpdate store.issues params.projectId
        params.issueId with
    | some cur =>
      obtain ⟨hcur, hcid, hcp, hca⟩ := getIssuePositionForUpdate_some hfind
      exact absurd ⟨cur, hcur, hcid, hcp, hca⟩ h
    | none =>
      unfold moveIssue
      rw [hfind]

/-- **C6.** If the effective target status equals the source status and the
clamped target position equals the moving issue's current position, the move
takes the fast path: it commits without running any UPDATE, returning a
store that is bit-for-bit identical to the input. -/
theorem moveIssue_noop_bit_identical
    (now : Int) (store : Store) (params : MoveIssueParams) (current : IssueRow)
    (hfind : getIssuePositionForUpdate store.issues params.projectId
      params.issueId = some current)
    (hlock : lockStatuses store.statuses params.projectId current.statusId
      (effTargetStatus params current) = true)
    (hsame : current.statusId = effTargetStatus params current)
    (hclamp : moveTargetPos store params current = current.statusPosition) :
    moveIssue now store params = Except.ok store := by
  unfold moveIssue
  rw [hfind]
  simp only []
  have hlock' : lockStatuses store.statuses params.projectId current.statusId
      (if params.targetStatusId = "" then current.statusId
       else params.targetStatusId) = true := hlock
  rw [if_pos hlock']
  have hsame' : current.statusId =
      (if params.targetStatusId = "" then current.statusId
       else params.targetStatusId) := hsame
  have hclamp' : clampTargetPosition store.issues params.projectId
      (if params.targetStatusId = "" then current.statusId
       else params.targetStatusId) params.targetPosition
      (decide (current.statusId =
        (if params.targetStatusId = "" then current.statusId
         else params.targetStatusId))) = current.statusPosition := hclamp
  rw [if_pos ⟨hsame', hclamp'⟩]

/-- Fixture: a no-op move of `B` within `Todo` to its own position, with the
target status left empty so it defaults to the source status. -/
def noopFixtureParams : MoveIssueParams :=
  { projectId := "P", issueId := "B", targetStatusId := "",
    targetPosition := 1 }

/-- Witness: the no-op theorem applied to the two-issue fixture. -/
theorem moveIssue_noop_bit_identical_witness :
    getIssuePositionForUpdate moveFixtureStore.issues "P" "B" =
      some (sampleRow "B" "P" "Todo" 1) ∧
    lockStatuses moveFixtureStore.statuses "P" "Todo"
      (effTargetStatus noopFixtureParams (sampleRow "B" "P" "Todo" 1)) = true ∧
    moveTargetPos moveFixtureStore noopFixtureParams
      (sampleRow "B" "P" "Todo" 1) = 1 ∧
    moveIssue 5 moveFixtureStore noopFixtureParams =
      Except.ok moveFixtureStore :=
  ⟨by decide, by decide, by decide,
    moveIssue_noop_bit_identical 5 moveFixtureStore noopFixtureParams
      (sampleRow "B" "P" "Todo" 1) (by decide) (by decide) (by decide)
      (by decide)⟩

/-- Every row of the committed store carrying the moved issue's id sits at
the clamped target position. -/
lemma moveIssue_ok_placed
    {now : Int} {store store' : Store} {params : MoveIssueParams}
    {current : IssueRow}
    (hids : idsNodup store.issues)
    (hfind : getIssuePositionForUpdate store.issues params.projectId
      params.issueId = some current)
    (hok : moveIssue now store params = .ok store') :
    ∀ r ∈ store'.issues, r.id = params.issueId →
      r.projectId = params.projectId →
      r.statusPosition = moveTargetPos store params current := by
  obtain ⟨hcur, hcid, hcp, hca⟩ := getIssuePositionForUpdate_some hfind
  obtain ⟨-, -, hcase⟩ := moveIssue_ok_elim hfind hok
  rcases hcase with ⟨hsame, htgteq, rfl⟩ | ⟨hnoop, st1, st2, hpark, hshift, hplace⟩
  · intro r hr hrid hrp
    have hrc : r = current := idsNodup_inj hids hr hcur (hrid.trans hcid.symm)
    rw [hrc]
    exact htgteq.symm
  · obtain ⟨huF, hfinraw⟩ := runUpdate_ok.mp hplace
    intro r hr hrid hrp
    rw [hfinraw, updateRows_eq_map_prop (fun r => r.id = params.issueId ∧
      r.projectId = params.projectId)] at hr
    rcases List.mem_map.mp hr with ⟨r0, hr0, rfl⟩
    by_cases hc : r0.id = params.issueId ∧ r0.projectId = params.projectId
    · rw [if_pos hc]
    · rw [if_neg hc] at hrid hrp ⊢
      exact absurd ⟨hrid, hrp⟩ hc

/-- Fixture: `Todo = [A@0, B@1, C@2]`. -/
def clampFixtureStore : Store :=
  { issues := [sampleRow "A" "P" "Todo" 0, sampleRow "B" "P" "Todo" 1,
               sampleRow "C" "P" "Todo" 2],
    statuses := [{ id := "Todo", projectId := "P" }], counters := [] }

/-- Fixture: ask for position 999, far beyond the end. -/
def clampFixtureParams : MoveIssueParams :=
  { projectId := "P", issueId := "A", targetStatusId := "Todo",
    targetPosition := 999 }

/-- Fixture: the committed store of the clamped move: `B@0, C@1, A@2`. -/
def clampFixtureResult : Store :=
  { issues := [{ sampleRow "A" "P" "Todo" 2 with updatedAt := 5 },
               { sampleRow "B" "P" "Todo" 0 with updatedAt := 5 },
               { sampleRow "C" "P" "Todo" 1 with updatedAt := 5 }],
    statuses := [{ id := "Todo", projectId := "P" }], counters := [] }

/-- **C4.** The clamp: the computed target position always lies in
`[0, max_pos]` with `max_pos = N_T - 1` for a same-status move and `N_T`
otherwise, floored at 0 (`legalMaxPos`); a request above `max_pos` is
clamped to `max_pos`; every row of the committed store carrying the moved
id sits at that clamped position; and concretely, moving `A` to position
999 in `[A@0, B@1, C@2]` commits `[B@0, C@1, A@2]`. -/
theorem clampTargetPosition_bounds_and_placement :
    (∀ (st : List IssueRow) (p t : String) (req : Int) (same : Bool),
      0 ≤ clampTargetPosition st p t req same ∧
      clampTargetPosition st p t req same ≤ legalMaxPos st p t same ∧
      (req > legalMaxPos st p t same →
        clampTargetPosition st p t req same = legalMaxPos st p t same)) ∧
    (∀ (now : Int) (store store' : Store) (params : MoveIssueParams)
      (current : IssueRow),
      idsNodup store.issues →
      getIssuePositionForUpdate store.issues params.projectId
        params.issueId = some current →
      moveIssue now store params = .ok store' →
      ∀ r ∈ store'.issues, r.id = params.issueId →
        r.projectId = params.projectId →
        0 ≤ r.statusPosition ∧
        r.statusPosition ≤ legalMaxPos store.issues params.projectId
          (effTargetStatus params current)
          (decide (current.statusId = effTargetStatus params current))) ∧
    MoveIssue 5 clampFixtureStore clampFixtureParams =
      Except.ok clampFixtureResult := by
  refine ⟨?_, ?_, by decide⟩
  · intro st p t req same
    obtain ⟨h1, h2⟩ := @clampTargetPosition_bounds st p t req same
    refine ⟨h1, h2, ?_⟩
    intro hgt
    rw [clampTargetPosition_eq]
    have := @legalMaxPos_nonneg st p t same
    rw [if_neg (by omega), if_pos hgt]
  · intro now store store' params current hids hfind hok r hr hrid hrp
    have hplaced := moveIssue_ok_placed hids hfind hok r hr hrid hrp
    have hb := @clampTargetPosition_bounds store.issues params.projectId
      (effTargetStatus params current) params.targetPosition
      (decide (current.statusId = effTargetStatus params current))
    have hmt : moveTargetPos store params current =
        clampTargetPosition store.issues params.projectId
          (effTargetStatus params current) params.targetPosition
          (decide (current.statusId = effTargetStatus params current)) := rfl
    rw [hplaced, hmt]
    exact ⟨hb.1, hb.2⟩

/-- Witness: the clamp theorem at the three-issue fixture, with the placed
row being `A` at position 2. -/
theorem clampTargetPosition_bounds_and_placement_witness :
    (0 ≤ clampTargetPosition clampFixtureStore.issues "P" "Todo" 999 true ∧
      clampTargetPosition clampFixtureStore.issues "P" "Todo" 999 true ≤
        legalMaxPos clampFixtureStore.issues "P" "Todo" true ∧
      (999 > legalMaxPos clampFixtureStore.issues "P" "Todo" true →
        clampTargetPosition clampFixtureStore.issues "P" "Todo" 999 true =
          legalMaxPos clampFixtureStore.issues "P" "Todo" true)) ∧
    (0 ≤ ({ sampleRow "A" "P" "Todo" 2 with updatedAt := 5 } : IssueRow).statusPosition ∧
      ({ sampleRow "A" "P" "Todo" 2 with updatedAt := 5 } : IssueRow).statusPosition ≤
        legalMaxPos clampFixtureStore.issues "P"
          (effTargetStatus clampFixtureParams (sampleRow "A" "P" "Todo" 0))
          (decide ((sampleRow "A" "P" "Todo" 0).statusId =
            effTargetStatus clampFixtureParams (sampleRow "A" "P" "Todo" 0)))) :=
  ⟨clampTargetPosition_bounds_and_placement.1 clampFixtureStore.issues "P"
      "Todo" 999 true,
    clampTargetPosition_bounds_and_placement.2.1 5 clampFixtureStore
      clampFixtureResult clampFixtureParams (sampleRow "A" "P" "Todo" 0)
      (by decide) (by decide)
      (by
        have h := clampTargetPosition_bounds_and_placement.2.2
        unfold MoveIssue at h
        revert h
        decide)
      ({ sampleRow "A" "P" "Todo" 2 with updatedAt := 5 })
      (by decide) (by decide) (by decide)⟩

/-- Fixture: move `C` to the head of `Todo`. -/
def reorderFixtureParams : MoveIssueParams :=
  { projectId := "P", issueId := "C", targetStatusId := "Todo",
    targetPosition := 0 }

/-- Fixture: the committed store of the head move: `C@0, A@1, B@2`. -/
def reorderFixtureResult : Store :=
  { issues := [{ sampleRow "A" "P" "Todo" 1 with updatedAt := 5 },
               { sampleRow "B" "P" "Todo" 2 with updatedAt := 5 },
               { sampleRow "C" "P" "Todo" 0 with updatedAt := 5 }],
    statuses := [{ id := "Todo", projectId := "P" }], counters := [] }

/-- **C2.** A successful same-status up-shift moves exactly the non-moving
active rows with positions in `[p_tgt, p_src - 1]` up by one (its two UPDATE
statements add `K` and then subtract `K - 1`), provided every position of
the range is realized off the moving issue; and concretely, moving `C` to
position 0 in `Todo = [A@0, B@1, C@2]` commits `[C@0, A@1, B@2]`. -/
theorem shiftUpRange_semantics_and_head_move :
    (∀ (now : Int) (p i s : String) (a b : Int) (st out : List IssueRow),
      shiftUpRange now p i s a b st = .ok out →
      a ≤ b → idsNodup st →
      (∀ v : Int, a ≤ v → v ≤ b → ∃ r, r ∈ st ∧ r.projectId = p ∧
        r.statusId = s ∧ r.archivedAt = none ∧ r.id ≠ i ∧
        r.statusPosition = v) →
      out = st.map (fun r =>
        if r.projectId = p ∧ r.statusId = s ∧ r.archivedAt = none ∧
            r.id ≠ i ∧ a ≤ r.statusPosition ∧ r.statusPosition ≤ b
        then { r with statusPosition := r.statusPosition + 1,
                      updatedAt := now }
        else r)) ∧
    MoveIssue 5 clampFixtureStore reorderFixtureParams =
      Except.ok reorderFixtureResult := by
  refine ⟨?_, by decide⟩
  intro now p i s a b st out hok hab hids hcover
  exact shiftUpRange_ok_eq hok hab hids hcover

/-- Witness: the up-shift theorem at a parked three-row cell. -/
theorem shiftUpRange_semantics_and_head_move_witness :
    shiftUpRange 5 "P" "C" "Todo" 0 1
        [sampleRow "A" "P" "Todo" 0, sampleRow "B" "P" "Todo" 1,
         sampleRow "C" "P" "Todo" 3] =
      .ok [{ sampleRow "A" "P" "Todo" 1 with updatedAt := 5 },
           { sampleRow "B" "P" "Todo" 2 with updatedAt := 5 },
           sampleRow "C" "P" "Todo" 3] ∧
    (0 : Int) ≤ 1 ∧
    idsNodup [sampleRow "A" "P" "Todo" 0, sampleRow "B" "P" "Todo" 1,
      sampleRow "C" "P" "Todo" 3] ∧
    [{ sampleRow "A" "P" "Todo" 1 with updatedAt := 5 },
     { sampleRow "B" "P" "Todo" 2 with updatedAt := 5 },
     sampleRow "C" "P" "Todo" 3] =
      ([sampleRow "A" "P" "Todo" 0, sampleRow "B" "P" "Todo" 1,
        sampleRow "C" "P" "Todo" 3].map (fun r =>
        if r.projectId = "P" ∧ r.statusId = "Todo" ∧ r.archivedAt = none ∧
            r.id ≠ "C" ∧ 0 ≤ r.statusPosition ∧ r.statusPosition ≤ 1
        then { r with statusPosition := r.statusPosition + 1, updatedAt := 5 }
        else r)) :=
  ⟨by decide, by decide, by decide,
    shiftUpRange_semantics_and_head_move.1 5 "P" "C" "Todo" 0 1
      [sampleRow "A" "P" "Todo" 0, sampleRow "B" "P" "Todo" 1,
       sampleRow "C" "P" "Todo" 3]
      [{ sampleRow "A" "P" "Todo" 1 with updatedAt := 5 },
       { sampleRow "B" "P" "Todo" 2 with updatedAt := 5 },
       sampleRow "C" "P" "Todo" 3]
      (by decide) (by decide) (by decide)
      (fun v h1 h2 => by
        have hv : v = 0 ∨ v = 1 := by omega
        rcases hv with rfl | rfl
        · exact ⟨sampleRow "A" "P" "Todo" 0, by decide, by decide, by decide,
            by decide, by decide, by decide⟩
        · exact ⟨sampleRow "B" "P" "Todo" 1, by decide, by decide, by decide,
            by decide, by decide, by decide⟩)⟩

/-- Fixture: `Todo = [A@0, B@1]`, `Doing = [D@0, E@1]`. -/
def crossFixtureStore : Store :=
  { issues := [sampleRow "A" "P" "Todo" 0, sampleRow "B" "P" "Todo" 1,
               sampleRow "D" "P" "Doing" 0, sampleRow "E" "P" "Doing" 1],
    statuses := [{ id := "Todo", projectId := "P" },
                 { id := "Doing", projectId := "P" }],
    counters := [] }

/-- Fixture: move `B` to `Doing` position 1. -/
def crossFixtureParams : MoveIssueParams :=
  { projectId := "P", issueId := "B", targetStatusId := "Doing",
    targetPosition := 1 }

/-- Fixture: the committed cross-status store:
`Todo = [A@0]`, `Doing = [D@0, B@1, E@2]`. -/
def crossFixtureResult : Store :=
  { issues := [sampleRow "A" "P" "Todo" 0,
               { sampleRow "B" "P" "Doing" 1 with updatedAt := 5 },
               sampleRow "D" "P" "Doing" 0,
               { sampleRow "E" "P" "Doing" 2 with updatedAt := 5 }],
    statuses := [{ id := "Todo", projectId := "P" },
                 { id := "Doing", projectId := "P" }],
    counters := [] }

/-- **C3.** In a cross-status move, the source collapse shifts the active
positions strictly greater than `p_src` down by one (unbounded above), the
target gap-opening shifts active positions `≥ p_tgt` up by one, the moving
issue lands at `(T, p_tgt)`; and concretely, from `Todo = [A@0, B@1]` and
`Doing = [D@0, E@1]`, moving `B` to `Doing` position 1 commits
`Todo = [A@0]`, `Doing = [D@0, B@1, E@2]`. -/
theorem crossStatus_shift_semantics_and_example :
    (∀ (now : Int) (p i s : String) (src : Int) (st out : List IssueRow),
      collapseSourceStatus now p i s src st = .ok out →
      out = st.map (fun r =>
        if r.projectId = p ∧ r.statusId = s ∧ r.archivedAt = none ∧
            r.id ≠ i ∧ src + 1 ≤ r.statusPosition
        then { r with statusPosition := r.statusPosition - 1,
                      updatedAt := now }
        else r)) ∧
    (∀ (now : Int) (p t : String) (tgt : Int) (st out : List IssueRow),
      openGapInTargetStatus now p t tgt st = .ok out →
      out = st.map (fun r =>
        if r.projectId = p ∧ r.statusId = t ∧ r.archivedAt = none ∧
            tgt ≤ r.statusPosition
        then { r with statusPosition := r.statusPosition + 1,
                      updatedAt := now }
        else r)) ∧
    MoveIssue 5 crossFixtureStore crossFixtureParams =
      Except.ok crossFixtureResult := by
  refine ⟨?_, ?_, by decide⟩
  · intro now p i s src st out hok
    exact shiftDownRange_unbounded_ok_eq hok
  · intro now p t tgt st out hok
    exact openGapInTargetStatus_ok_eq hok

/-- Witness: the collapse and gap-opening semantics at one-row cells. -/
theorem crossStatus_shift_semantics_witness :
    collapseSourceStatus 5 "P" "Z" "Todo" 0 [sampleRow "A" "P" "Todo" 1] =
      .ok [{ sampleRow "A" "P" "Todo" 0 with updatedAt := 5 }] ∧
    [{ sampleRow "A" "P" "Todo" 0 with updatedAt := 5 }] =
      ([sampleRow "A" "P" "Todo" 1].map (fun r =>
        if r.projectId = "P" ∧ r.statusId = "Todo" ∧ r.archivedAt = none ∧
            r.id ≠ "Z" ∧ 0 + 1 ≤ r.statusPosition
        then { r with statusPosition := r.statusPosition - 1, updatedAt := 5 }
        else r)) ∧
    openGapInTargetStatus 5 "P" "Doing" 0 [sampleRow "D" "P" "Doing" 0] =
      .ok [{ sampleRow "D" "P" "Doing" 1 with updatedAt := 5 }] ∧
    [{ sampleRow "D" "P" "Doing" 1 with updatedAt := 5 }] =
      ([sampleRow "D" "P" "Doing" 0].map (fun r =>
        if r.projectId = "P" ∧ r.statusId = "Doing" ∧ r.archivedAt = none ∧
            (0 : Int) ≤ r.statusPosition
        then { r with statusPosition := r.statusPosition + 1, updatedAt := 5 }
        else r)) :=
  ⟨by decide,
    crossStatus_shift_semantics_and_example.1 5 "P" "Z" "Todo" 0
      [sampleRow "A" "P" "Todo" 1]
      [{ sampleRow "A" "P" "Todo" 0 with updatedAt := 5 }] (by decide),
    by decide,
    crossStatus_shift_semantics_and_example.2.1 5 "P" "Doing" 0
      [sampleRow "D" "P" "Doing" 0]
      [{ sampleRow "D" "P" "Doing" 1 with updatedAt := 5 }] (by decide)⟩

/-- Two checked UPDATE phases leave every row satisfying `Q` untouched when
neither phase's WHERE clause can match such a row. -/
lemma two_phase_spares (P1 P2 : IssueRow → Prop) [DecidablePred P1]
    [DecidablePred P2] (f1 f2 : IssueRow → IssueRow) (st : List IssueRow)
    (Q : IssueRow → Prop)
    (h1 : ∀ r, Q r → ¬ P1 r) (h2 : ∀ r, Q r → ¬ P2 r) :
    ∃ g, updateRows (fun r => decide (P2 r)) f2
        (updateRows (fun r => decide (P1 r)) f1 st) = st.map g ∧
      ∀ r, Q r → g r = r := by
  refine ⟨(fun r => if P2 r then f2 r else r) ∘
    (fun r => if P1 r then f1 r else r), ?_, ?_⟩
  · rw [updateRows_eq_map_prop, updateRows_eq_map_prop, List.map_map]
  · intro r hq
    simp only [Function.comp_apply]
    rw [if_neg (h1 r hq), if_neg (h2 r hq)]

/-- **C7.** The park statement puts the moving issue at
`COALESCE(MAX, -1) + 1` of its source cell, and every range shift of the
move spares it: both phases of the same-status shifts and of the source
collapse exclude its id, and both phases of the target gap-opening touch
only rows of the target status, which the moving issue does not yet occupy.
Its position therefore stays at the parked value until the final placement
update. -/
theorem move_shifts_spare_moving_row :
    (∀ (now : Int) (p i s : String) (st out : List IssueRow),
      parkIssueAtTempPosition now p i s st = .ok out →
      ∀ r ∈ out, r.id = i → r.projectId = p →
        r.statusPosition = maxActivePosition st p s + 1) ∧
    (∀ (now : Int) (p i s : String) (a b : Int) (st out : List IssueRow),
      shiftUpRange now p i s a b st = .ok out →
      ∃ g, out = st.map g ∧ ∀ r, r.id = i → g r = r) ∧
    (∀ (now : Int) (p i s : String) (a b : Int) (st out : List IssueRow),
      shiftDownRange now p i s a b st = .ok out →
      ∃ g, out = st.map g ∧ ∀ r, r.id = i → g r = r) ∧
    (∀ (now : Int) (p t : String) (tgt : Int) (st out : List IssueRow),
      openGapInTargetStatus now p t tgt st = .ok out →
      ∃ g, out = st.map g ∧ ∀ r, r.statusId ≠ t → g r = r) := by
  refine ⟨?_, ?_, ?_, ?_⟩
  · intro now p i s st out hok r hr hrid hrp
    obtain ⟨hu, hmap⟩ := parkIssueAtTempPosition_ok_eq hok
    rw [hmap] at hr
    rcases List.mem_map.mp hr with ⟨r0, hr0, rfl⟩
    by_cases hc : r0.id = i ∧ r0.projectId = p
    · rw [if_pos hc]
    · rw [if_neg hc] at hrid hrp ⊢
      exact absurd ⟨hrid, hrp⟩ hc
  · intro now p i s a b st out hok
    unfold shiftUpRange at hok
    by_cases hab : a > b
    · rw [if_pos hab] at hok
      have hout : st = out := by injection hok
      exact ⟨id, by rw [← hout, List.map_id], fun r _ => rfl⟩
    · rw [if_neg hab] at hok
      cases h1 : runUpdate
          (fun r => decide (r.projectId = p ∧ r.statusId = s ∧
            r.archivedAt = none ∧ r.id ≠ i ∧
            a ≤ r.statusPosition ∧ r.statusPosition ≤ b))
          (fun r => { r with statusPosition := r.statusPosition + reorderOffset,
                             updatedAt := now }) st with
      | error e => rw [h1] at hok; exact absurd hok (by simp)
      | ok st1 =>
        rw [h1] at hok
        obtain ⟨hu1, rfl⟩ := runUpdate_ok.mp h1
        obtain ⟨hu2, rfl⟩ := runUpdate_ok.mp hok
        exact two_phase_spares _ _ _ _ st (fun r => r.id = i)
          (fun r hq hc => hc.2.2.2.1 hq) (fun r hq hc => hc.2.2.2.1 hq)
  · intro now p i s a b st out hok
    unfold shiftDownRange at hok
    by_cases hab : b ≥ 0 ∧ a > b
    · rw [if_pos hab] at hok
      have hout : st = out := by injection hok
      exact ⟨id, by rw [← hout, List.map_id], fun r _ => rfl⟩
    · rw [if_neg hab] at hok
      cases h1 : runUpdate
          (fun r => decide (r.projectId = p ∧ r.statusId = s ∧
            r.archivedAt = none ∧ r.id ≠ i ∧ a ≤ r.statusPosition ∧
            (b ≥ 0 → r.statusPosition ≤ b)))
          (fun r => { r with statusPosition := r.statusPosition + reorderOffset,
                             updatedAt := now }) st with
      | error e => rw [h1] at hok; exact absurd hok (by simp)
      | ok st1 =>
        rw [h1] at hok
        obtain ⟨hu1, rfl⟩ := runUpdate_ok.mp h1
        obtain ⟨hu2, rfl⟩ := runUpdate_ok.mp hok
        exact two_phase_spares _ _ _ _ st (fun r => r.id = i)
          (fun r hq hc => hc.2.2.2.1 hq) (fun r hq hc => hc.2.2.2.1 hq)
  · intro now p t tgt st out hok
    unfold openGapInTargetStatus at hok
    cases h1 : runUpdate
        (fun r => decide (r.projectId = p ∧ r.statusId = t ∧
          r.archivedAt = none ∧ tgt ≤ r.statusPosition))
        (fun r => { r with statusPosition := r.statusPosition + reorderOffset,
                           updatedAt := now }) st with
    | error e => rw [h1] at hok; exact absurd hok (by simp)
    | ok st1 =>
      rw [h1] at hok
      obtain ⟨hu1, rfl⟩ := runUpdate_ok.mp h1
      obtain ⟨hu2, rfl⟩ := runUpdate_ok.mp hok
      exact two_phase_spares _ _ _ _ st (fun r => r.statusId ≠ t)
        (fun r hq hc => hq hc.2.1) (fun r hq hc => hq hc.2.1)

/-- Witness: park, shift and gap statements sparing a concrete moving row. -/
theorem move_shifts_spare_moving_row_witness :
    parkIssueAtTempPosition 5 "P" "C" "Todo"
        [sampleRow "A" "P" "Todo" 0, sampleRow "C" "P" "Todo" 1] =
      .ok [sampleRow "A" "P" "Todo" 0,
           { sampleRow "C" "P" "Todo" 2 with updatedAt := 5 }] ∧
    ({ sampleRow "C" "P" "Todo" 2 with updatedAt := 5 } : IssueRow) ∈
      [sampleRow "A" "P" "Todo" 0,
       { sampleRow "C" "P" "Todo" 2 with updatedAt := 5 }] ∧
    ({ sampleRow "C" "P" "Todo" 2 with updatedAt := 5 } : IssueRow).statusPosition =
      maxActivePosition
        [sampleRow "A" "P" "Todo" 0, sampleRow "C" "P" "Todo" 1] "P" "Todo" + 1 :=
  ⟨by decide, by decide,
    move_shifts_spare_moving_row.1 5 "P" "C" "Todo"
      [sampleRow "A" "P" "Todo" 0, sampleRow "C" "P" "Todo" 1]
      [sampleRow "A" "P" "Todo" 0,
       { sampleRow "C" "P" "Todo" 2 with updatedAt := 5 }]
      (by decide) ({ sampleRow "C" "P" "Todo" 2 with updatedAt := 5 })
      (by decide) (by decide) (by decide)⟩

lemma find?_map_bump (counters : List (String × Int)) (p : String)
    (c : String × Int)
    (hf : counters.find? (fun d => decide (d.fst = p)) = some c) :
    (counters.map (fun d => if d.fst = p then (d.fst, d.snd + 1) else d)).find?
      (fun d => decide (d.fst = p)) = some (c.fst, c.snd + 1) := by
  induction counters with
  | nil => simp at hf
  | cons a l ih =>
    by_cases ha : a.fst = p
    · rw [List.find?_cons_of_pos _ (by simpa using ha)] at hf
      injection hf with hf
      subst hf
      simp only [List.map_cons]
      rw [if_pos ha]
      rw [List.find?_cons_of_pos _ (by simpa using ha)]
    · rw [List.find?_cons_of_neg _ (by simpa using ha)] at hf
      simp only [List.map_cons]
      rw [if_neg ha]
      rw [List.find?_cons_of_neg _ (by simpa using ha)]
      exact ih hf

/-- After the upsert, the project's counter row holds the returned number. -/
lemma upsertCounter_find (counters : List (String × Int)) (p : String) :
    (upsertCounter counters p).snd.find? (fun c => decide (c.fst = p)) =
      some (p, (upsertCounter counters p).fst) := by
  unfold upsertCounter
  cases hf : counters.find? (fun c => decide (c.fst = p)) with
  | none =>
    simp only []
    rw [List.find?_cons_of_pos _ (by simp)]
  | some c =>
    simp only []
    have hcp : c.fst = p := by
      have := List.find?_some hf
      simpa using this
    rw [find?_map_bump counters p c hf, hcp]

/-- What one successful insert establishes: the returned number is the
bumped counter, the position is `COALESCE(MAX, -1) + 1` of the cell, and
the committed counter row carries the returned number. -/
lemma createIssue_ok_facts {newId : String} {now : Int} {store : Store}
    {params : CreateIssueParams} {issue : IssueRow} {store' : Store}
    (hok : createIssue newId now store params = .ok (issue, store')) :
    issue.number = (match store.counters.find?
        (fun c => decide (c.fst = params.projectId)) with
      | none => 0
      | some c => c.snd) + 1 ∧
    issue.statusPosition =
      maxActivePosition store.issues params.projectId params.statusId + 1 ∧
    store'.counters.find? (fun c => decide (c.fst = params.projectId)) =
      some (params.projectId, issue.number) := by
  unfold createIssue at hok
  simp only [] at hok
  split at hok <;> split at hok <;> split at hok <;>
  first
    | (injection hok with hok
       injection hok with h1 h2
       subst h1
       subst h2
       refine ⟨?_, rfl, ?_⟩
       · show (upsertCounter store.counters params.projectId).fst = _
         unfold upsertCounter
         cases hf : store.counters.find?
             (fun c => decide (c.fst = params.projectId)) with
         | none => rfl
         | some c => rfl
       · show (upsertCounter store.counters params.projectId).snd.find? _ =
           some (params.projectId,
             (upsertCounter store.counters params.projectId).fst)
         exact upsertCounter_find store.counters params.projectId)
    | injection hok

/-- Fixture: parameters for a plain issue creation in project `P`. -/
def createFixtureParams : CreateIssueParams :=
  { projectId := "P", issueTypeId := "ty", statusId := "Todo",
    parentIssueId := "", title := "t", description := "",
    priority := "medium", assigneeId := "", reporterId := "r",
    dueDate := none }

/-- **C5.** `createIssue` returns the atomically bumped per-project counter
as the issue number (1 on first insert) and places the issue at
`COALESCE(MAX(status_position), -1) + 1` over the active issues of its
cell, computed on the pre-insert state; consequently, under serial
execution two successful creations in the same project return consecutive
numbers. -/
theorem createIssue_number_and_position :
    (∀ (newId : String) (now : Int) (store : Store)
      (params : CreateIssueParams) (issue : IssueRow) (store' : Store),
      createIssue newId now store params = .ok (issue, store') →
      issue.number = (match store.counters.find?
          (fun c => decide (c.fst = params.projectId)) with
        | none => 0
        | some c => c.snd) + 1 ∧
      issue.statusPosition =
        maxActivePosition store.issues params.projectId params.statusId + 1 ∧
      store'.counters.find? (fun c => decide (c.fst = params.projectId)) =
        some (params.projectId, issue.number)) ∧
    (∀ (newId1 newId2 : String) (now1 now2 : Int) (store st1 st2 : Store)
      (p1 p2 : CreateIssueParams) (i1 i2 : IssueRow),
      p1.projectId = p2.projectId →
      createIssue newId1 now1 store p1 = .ok (i1, st1) →
      createIssue newId2 now2 st1 p2 = .ok (i2, st2) →
      i2.number = i1.number + 1) := by
  refine ⟨fun _ _ _ _ _ _ hok => createIssue_ok_facts hok, ?_⟩
  intro newId1 newId2 now1 now2 store st1 st2 p1 p2 i1 i2 hproj h1 h2
  obtain ⟨-, -, hc1⟩ := createIssue_ok_facts h1
  obtain ⟨hn2, -, -⟩ := createIssue_ok_facts h2
  rw [← hproj] at hn2
  rw [hc1] at hn2
  simpa using hn2

/-- Fixture: the first created issue of an empty project. -/
def createFixtureRow1 : IssueRow :=
  { id := "i1", projectId := "P", number := 1, issueTypeId := "ty",
    statusId := "Todo", parentIssueId := none, title := "t",
    description := "", priority := "medium", assigneeId := none,
    reporterId := "r", dueDate := none, statusPosition := 0, createdAt := 0,
    updatedAt := 0, archivedAt := none }

/-- Fixture: the second created issue. -/
def createFixtureRow2 : IssueRow :=
  { createFixtureRow1 with id := "i2", number := 2, statusPosition := 1 }

/-- Fixture: the store after the first creation. -/
def createFixtureStore1 : Store :=
  { issues := [createFixtureRow1], statuses := [], counters := [("P", 1)] }

/-- Fixture: the store after the second creation. -/
def createFixtureStore2 : Store :=
  { issues := [createFixtureRow1, createFixtureRow2], statuses := [],
    counters := [("P", 2)] }

/-- Witness: two serial creations in the fixture project number 1 then 2. -/
theorem createIssue_number_and_position_witness :
    createIssue "i1" 0 { issues := [], statuses := [], counters := [] }
        createFixtureParams = .ok (createFixtureRow1, createFixtureStore1) ∧
    createIssue "i2" 0 createFixtureStore1 createFixtureParams =
      .ok (createFixtureRow2, createFixtureStore2) ∧
    createFixtureParams.projectId = createFixtureParams.projectId ∧
    createFixtureRow2.number = createFixtureRow1.number + 1 :=
  ⟨by decide, by decide, rfl,
    createIssue_number_and_position.2 "i1" "i2" 0 0
      { issues := [], statuses := [], counters := [] }
      createFixtureStore1 createFixtureStore2
      createFixtureParams createFixtureParams
      createFixtureRow1 createFixtureRow2 rfl (by decide) (by decide)⟩

/-- Fixture: the row as committed by archiving at time 5 (trigger bumps
`updated_at`). -/
def archiveFixtureCommitted : IssueRow :=
  { sampleRow "A" "P" "Todo" 0 with archivedAt := some 5, updatedAt := 5 }

/-- Fixture: the row with only `archived_at` set, other columns untouched. -/
def archiveFixtureOnlyArchived : IssueRow :=
  { sampleRow "A" "P" "Todo" 0 with archivedAt := some 5 }

/-- **C9 (counterexample).** The archive UPDATE also fires the
`trg_set_updated_at_issues` trigger: the committed row differs from the row
with only `archived_at` set, so the archive does not set *only*
`archived_at`. -/
theorem archiveIssue_only_archivedAt_counterexample :
    archiveIssue 5
        { issues := [sampleRow "A" "P" "Todo" 0], statuses := [],
          counters := [] } "P" "A" =
      Except.ok
        { issues := [archiveFixtureCommitted], statuses := [],
          counters := [] } ∧
    archiveFixtureCommitted ≠ archiveFixtureOnlyArchived := by
  decide

/-- **C9 (amended).** `archiveIssue` on an active issue sets that issue's
`archived_at` to now and, via the update trigger, its `updated_at`, and
modifies no other issue's row — in particular the `status_position` of
every other active issue in its status is unchanged (no compaction); on a
missing or already-archived issue it returns `IssueNotFound`. -/
theorem archiveIssue_semantics :
    (∀ (now : Int) (store store' : Store) (pid iid : String),
      archiveIssue now store pid iid = .ok store' →
      store'.statuses = store.statuses ∧ store'.counters = store.counters ∧
      store'.issues = store.issues.map (fun r =>
        if r.id = iid ∧ r.projectId = pid ∧ r.archivedAt = none
        then { r with archivedAt := some now, updatedAt := now }
        else r)) ∧
    (∀ (now : Int) (store : Store) (pid iid : String),
      archiveIssue now store pid iid = Except.error EngineError.issueNotFound ↔
        ¬ ∃ r, r ∈ store.issues ∧ r.id = iid ∧ r.projectId = pid ∧
          r.archivedAt = none) := by
  constructor
  · intro now store store' pid iid hok
    unfold archiveIssue at hok
    simp only [] at hok
    split at hok
    · exact absurd hok (by simp)
    · injection hok with hok
      subst hok
      refine ⟨rfl, rfl, ?_⟩
      show updateRows _ _ store.issues = _
      exact updateRows_eq_map_prop
        (fun r => r.id = iid ∧ r.projectId = pid ∧ r.archivedAt = none) _
        store.issues
  · intro now store pid iid
    unfold archiveIssue
    simp only []
    split
    · rename_i haff
      constructor
      · intro _
        rw [List.length_eq_zero, List.filter_eq_nil_iff] at haff
        rintro ⟨r, hr, h1, h2, h3⟩
        exact haff r hr (by simp [h1, h2, h3])
      · intro _
        rfl
    · rename_i haff
      constructor
      · intro h
        exact absurd h (by simp)
      · intro hno
        exfalso
        have hne : (store.issues.filter (fun r =>
            decide (r.id = iid ∧ r.projectId = pid ∧ r.archivedAt = none)))
            ≠ [] := by
          intro hh
          exact haff (by rw [hh]; rfl)
        rcases List.exists_mem_of_ne_nil _ hne with ⟨r, hrf⟩
        rw [List.mem_filter] at hrf
        obtain ⟨hr, hc⟩ := hrf
        rw [decide_eq_true_eq] at hc
        exact hno ⟨r, hr, hc⟩

/-- Fixture: the store archived in the C9 counterexample. -/
def archiveFixtureStore : Store :=
  { issues := [sampleRow "A" "P" "Todo" 0], statuses := [], counters := [] }

/-- Fixture: the committed store of the C9 counterexample. -/
def archiveFixtureStore' : Store :=
  { issues := [archiveFixtureCommitted], statuses := [], counters := [] }

/-- Witness: archiving issue A of the fixture rewrites exactly its row;
archiving an unknown id returns `IssueNotFound`. -/
theorem archiveIssue_semantics_witness :
    (archiveFixtureStore'.statuses = archiveFixtureStore.statuses ∧
     archiveFixtureStore'.counters = archiveFixtureStore.counters ∧
     archiveFixtureStore'.issues = archiveFixtureStore.issues.map (fun r =>
        if r.id = "A" ∧ r.projectId = "P" ∧ r.archivedAt = none
        then { r with archivedAt := some 5, updatedAt := 5 } else r)) ∧
    archiveIssue 5 archiveFixtureStore "P" "B" =
      Except.error EngineError.issueNotFound :=
  ⟨archiveIssue_semantics.1 5 archiveFixtureStore archiveFixtureStore'
      "P" "A" (by decide),
   (archiveIssue_semantics.2 5 archiveFixtureStore "P" "B").mpr (by decide)⟩

/-- Appending a row placed just above its cell's active maximum cannot
collide on the partial unique index. -/
lemma uniqueIndexOK_append_max {st : List IssueRow} (hu : uniqueIndexOK st)
    (row : IssueRow)
    (hpos : row.statusPosition =
      maxActivePosition st row.projectId row.statusId + 1) :
    uniqueIndexOK (st ++ [row]) := by
  unfold uniqueIndexOK at *
  rw [List.pairwise_append]
  refine ⟨hu, List.pairwise_singleton _ _, ?_⟩
  intro a ha b hb
  rw [List.mem_singleton] at hb
  subst hb
  rintro ⟨h1, h2, h3, _, h5⟩
  have hle := le_maxActivePosition ha h1 h2 h3
  omega

/-- With a conflict-free table, the INSERT of `createIssue` always passes
the index check, and the row stores the given priority verbatim. -/
lemma createIssue_ok_of_unique (newId : String) (now : Int) (store : Store)
    (params : CreateIssueParams) (hu : uniqueIndexOK store.issues) :
    ∃ issue store',
      createIssue newId now store params = Except.ok (issue, store') ∧
      issue.priority = params.priority := by
  unfold createIssue
  simp only []
  split <;> split <;> split <;>
    first
      | exact ⟨_, _, rfl, rfl⟩
      | (rename_i h
         refine absurd (uniqueIndexOK_append_max hu _ ?_) h
         rfl)

/-- The creation params with the priority defaulted to "medium". -/
def withMediumPriority (p : CreateIssueParams) : CreateIssueParams :=
  { p with priority := "medium" }

/-- **C10.** A `CreateIssue` whose priority parameter is empty (required
fields present, table conflict-free) succeeds and the created issue's
priority is "medium"; by contrast `UpdateIssueParams.Validate` rejects an
empty priority (required fields present) with `InvalidPriority`. -/
theorem createIssue_priority_default_vs_update :
    (∀ (newId : String) (now : Int) (store : Store) (p : CreateIssueParams),
      uniqueIndexOK store.issues → p.priority = "" → p.projectId ≠ "" →
      p.issueTypeId ≠ "" → p.statusId ≠ "" → p.title ≠ "" →
      p.reporterId ≠ "" →
      ∃ issue store',
        CreateIssue newId now store p = Except.ok (issue, store') ∧
        issue.priority = "medium") ∧
    (∀ u : UpdateIssueParams, u.issueId ≠ "" → u.projectId ≠ "" →
      u.title ≠ "" → u.priority = "" →
      u.validate = some EngineError.invalidPriority) := by
  constructor
  · intro newId now store p hu hpri h1 h2 h3 h4 h5
    have hval : p.validate = none := by
      unfold CreateIssueParams.validate
      rw [if_neg h1, if_neg h2, if_neg h3, if_neg h4, if_neg h5]
      simp only []
      rw [hpri]
      rfl
    unfold CreateIssue
    rw [hval]
    simp only []
    rw [if_pos hpri]
    obtain ⟨issue, store', hok, hpr⟩ :=
      createIssue_ok_of_unique newId now store (withMediumPriority p) hu
    exact ⟨issue, store', hok, hpr⟩
  · intro u h1 h2 h3 hpri
    have hc : ¬ (validPriorities.contains u.priority = true) := by
      rw [hpri]; decide
    unfold UpdateIssueParams.validate
    rw [if_neg h1, if_neg h2, if_neg h3, if_neg hc]

/-- Fixture: creation params with an empty priority. -/
def createFixtureEmptyPriority : CreateIssueParams :=
  { createFixtureParams with priority := "" }

/-- Fixture: update params with an empty priority. -/
def updateFixtureEmptyPriority : UpdateIssueParams :=
  { issueId := "i1", projectId := "P", title := "t", description := "",
    priority := "", assigneeId := none, dueDate := none }

/-- Witness: creating with empty priority on the empty store succeeds with
priority "medium"; updating with empty priority is rejected. -/
theorem createIssue_priority_default_vs_update_witness :
    (∃ issue store',
      CreateIssue "i1" 0 { issues := [], statuses := [], counters := [] }
          createFixtureEmptyPriority = Except.ok (issue, store') ∧
      issue.priority = "medium") ∧
    updateFixtureEmptyPriority.validate = some EngineError.invalidPriority :=
  ⟨createIssue_priority_default_vs_update.1 "i1" 0
      { issues := [], statuses := [], counters := [] }
      createFixtureEmptyPriority (by decide) rfl (by decide) (by decide)
      (by decide) (by decide) (by decide),
   createIssue_priority_default_vs_update.2 updateFixtureEmptyPriority
     (by decide) (by decide) (by decide) rfl⟩
